import Mathlib

/-!
Verification of the Proof-of-Life on-chain verifiers (UltraHonk over BN254 and
a Groth16 variant) against their natural-language specification.

The development shallowly embeds the Rust sources:
  * `contracts/ultrahonk-verifier/ultrahonk-soroban-verifier/src/sumcheck.rs`
  * `contracts/ultrahonk-verifier/ultrahonk-soroban-verifier/src/utils.rs`
  * `contracts/ultrahonk-verifier/ultrahonk-soroban-verifier/src/verifier.rs`
  * `contracts/zk-verifier/src/lib.rs`
  * `contracts/proof-of-life/src/lib.rs` (byte encoding helper)

The crate modules `field.rs`, `types.rs`, `relations.rs`, `transcript.rs` and
`shplemini.rs` are not part of the checked sources; where a claim depends on
them they are modelled from the specification and marked as such in their doc
comments.  The BN254 scalar field is realised as `ZMod pBN`; to obtain the
field structure (needed for inverse reasoning) we prove `pBN` prime via a
Lucas/Pratt certificate chain checked by kernel computation.
-/

/-! ## Fast modular exponentiation (fuel-based, kernel computable) -/

/-- Binary modular exponentiation with explicit fuel so that the kernel can
reduce it by structural recursion.  `powModF fuel m a k = a ^ k % m` whenever
`k < 2 ^ fuel`. -/
def powModF : ℕ → ℕ → ℕ → ℕ → ℕ
  | 0, m, _, _ => 1 % m
  | fuel + 1, m, a, k =>
    if k = 0 then 1 % m
    else
      let r := powModF fuel m (a * a % m) (k / 2)
      if k % 2 = 1 then r * (a % m) % m else r

theorem powModF_eq (fuel : ℕ) : ∀ m a k : ℕ, k < 2 ^ fuel →
    powModF fuel m a k = a ^ k % m := by
  induction fuel with
  | zero =>
    intro m a k hk
    have hk0 : k = 0 := Nat.lt_one_iff.mp (by simpa using hk)
    subst hk0
    simp [powModF]
  | succ fuel ih =>
    intro m a k hk
    by_cases hk0 : k = 0
    · subst hk0; simp [powModF]
    · have hhalf : k / 2 < 2 ^ fuel := by
        have h2 : 0 < 2 := by norm_num
        rw [Nat.div_lt_iff_lt_mul h2]
        calc k < 2 ^ (fuel + 1) := hk
        _ = 2 ^ fuel * 2 := by ring
      have hr : powModF fuel m (a * a % m) (k / 2) = (a * a % m) ^ (k / 2) % m :=
        ih m (a * a % m) (k / 2) hhalf
      have hpow : (a * a % m) ^ (k / 2) % m = (a * a) ^ (k / 2) % m :=
        (Nat.pow_mod (a * a) (k / 2) m).symm
      have haa : (a * a) ^ (k / 2) = a ^ (2 * (k / 2)) := by
        rw [two_mul, pow_add, ← pow_add]
        ring_nf
      rcases Nat.even_or_odd k with he | ho
      · have hmod : k % 2 = 0 := Nat.even_iff.mp he
        have hk2 : 2 * (k / 2) = k := by
          conv_rhs => rw [← Nat.div_add_mod k 2]
          simp [hmod]
        simp only [powModF, hk0, if_false, hmod]
        norm_num
        rw [hr, hpow, haa, hk2]
      · have hmod : k % 2 = 1 := Nat.odd_iff.mp ho
        have hk2 : 2 * (k / 2) + 1 = k := by
          conv_rhs => rw [← Nat.div_add_mod k 2]
          simp [hmod]
        simp only [powModF, hk0, if_false, hmod, if_true]
        rw [hr, hpow, haa]
        rw [← Nat.mul_mod, ← pow_succ, hk2]

/-- Bridge a `powModF` kernel computation to an equation in `ZMod n`. -/
theorem zmod_pow_eq_one_of_powModF (n a fuel : ℕ) (h : n - 1 < 2 ^ fuel)
    (hc : powModF fuel n a (n - 1) = 1 % n) : (a : ZMod n) ^ (n - 1) = 1 := by
  have h1 : a ^ (n - 1) % n = 1 % n := by
    rw [← powModF_eq fuel n a (n - 1) h, hc]
  have := (ZMod.natCast_eq_natCast_iff' (a ^ (n - 1)) 1 n).mpr h1
  simpa using this

/-- Bridge a `powModF` kernel computation to a disequation in `ZMod n`. -/
theorem zmod_pow_ne_one_of_powModF (n a e fuel : ℕ) (h : e < 2 ^ fuel)
    (hc : powModF fuel n a e % n ≠ 1 % n) : (a : ZMod n) ^ e ≠ 1 := by
  intro hcon
  apply hc
  rw [powModF_eq fuel n a e h, Nat.mod_mod_of_dvd _ (dvd_refl n)]
  have : ((a ^ e : ℕ) : ZMod n) = ((1 : ℕ) : ZMod n) := by push_cast; simpa using hcon
  exact (ZMod.natCast_eq_natCast_iff' (a ^ e) 1 n).mp this

/-- Lucas primality specialised to an explicit list of candidate prime
divisors of `n - 1`. -/
theorem lucas_cert (n a : ℕ) (qs : List ℕ)
    (hcov : ∀ q : ℕ, q.Prime → q ∣ (n - 1) → q ∈ qs)
    (ha : (a : ZMod n) ^ (n - 1) = 1)
    (hq : ∀ q ∈ qs, (a : ZMod n) ^ ((n - 1) / q) ≠ 1) : n.Prime :=
  lucas_primality n a ha (fun q hq' hd => hq q (hcov q hq' hd))

/-- If a prime divides a product, it divides one of the factors. -/
theorem prime_dvd_mul_cases {q a b : ℕ} (hq : q.Prime) (h : q ∣ a * b) :
    q ∣ a ∨ q ∣ b := (Nat.Prime.dvd_mul hq).mp h

theorem prime_dvd_prime {q r : ℕ} (hq : q.Prime) (hr : r.Prime) (h : q ∣ r) :
    q = r := (Nat.prime_dvd_prime_iff_eq hq hr).mp h

theorem prime_dvd_pow_prime {q r e : ℕ} (hq : q.Prime) (hr : r.Prime)
    (h : q ∣ r ^ e) : q = r :=
  prime_dvd_prime hq hr (Nat.Prime.dvd_of_dvd_pow hq h)

/-! ## Primality of the BN254 scalar modulus (Pratt/Lucas certificate chain) -/

set_option maxRecDepth 8000

theorem prime_405928799 : Nat.Prime 405928799 := by
  refine lucas_cert 405928799 22 [2, 11, 3691, 4999] ?_ ?_ ?_
  · intro q hq hdvd
    have hfac : (405928799 : ℕ) - 1 = 2 * (11 * (3691 * 4999)) := by norm_num
    rw [hfac] at hdvd
    rcases prime_dvd_mul_cases hq hdvd with h | hdvd
    · rw [prime_dvd_prime hq (by norm_num) h]
      decide
    rcases prime_dvd_mul_cases hq hdvd with h | hdvd
    · rw [prime_dvd_prime hq (by norm_num) h]
      decide
    rcases prime_dvd_mul_cases hq hdvd with h | hdvd
    · rw [prime_dvd_prime hq (by norm_num) h]
      decide
    rw [prime_dvd_prime hq (by norm_num) hdvd]
    decide
  · exact zmod_pow_eq_one_of_powModF 405928799 22 64 (by decide) (by decide)
  · intro q hqmem
    fin_cases hqmem
    · exact zmod_pow_ne_one_of_powModF 405928799 22 ((405928799 - 1) / 2) 64 (by decide) (by decide)
    · exact zmod_pow_ne_one_of_powModF 405928799 22 ((405928799 - 1) / 11) 64 (by decide) (by decide)
    · exact zmod_pow_ne_one_of_powModF 405928799 22 ((405928799 - 1) / 3691) 64 (by decide) (by decide)
    · exact zmod_pow_ne_one_of_powModF 405928799 22 ((405928799 - 1) / 4999) 64 (by decide) (by decide)

theorem prime_639533339 : Nat.Prime 639533339 := by
  refine lucas_cert 639533339 2 [2, 229, 853, 1637] ?_ ?_ ?_
  · intro q hq hdvd
    have hfac : (639533339 : ℕ) - 1 = 2 * (229 * (853 * 1637)) := by norm_num
    rw [hfac] at hdvd
    rcases prime_dvd_mul_cases hq hdvd with h | hdvd
    · rw [prime_dvd_prime hq (by norm_num) h]
      decide
    rcases prime_dvd_mul_cases hq hdvd with h | hdvd
    · rw [prime_dvd_prime hq (by norm_num) h]
      decide
    rcases prime_dvd_mul_cases hq hdvd with h | hdvd
    · rw [prime_dvd_prime hq (by norm_num) h]
      decide
    rw [prime_dvd_prime hq (by norm_num) hdvd]
    decide
  · exact zmod_pow_eq_one_of_powModF 639533339 2 64 (by decide) (by decide)
  · intro q hqmem
    fin_cases hqmem
    · exact zmod_pow_ne_one_of_powModF 639533339 2 ((639533339 - 1) / 2) 64 (by decide) (by decide)
    · exact zmod_pow_ne_one_of_powModF 639533339 2 ((639533339 - 1) / 229) 64 (by decide) (by decide)
    · exact zmod_pow_ne_one_of_powModF 639533339 2 ((639533339 - 1) / 853) 64 (by decide) (by decide)
    · exact zmod_pow_ne_one_of_powModF 639533339 2 ((639533339 - 1) / 1637) 64 (by decide) (by decide)

theorem prime_12048837557 : Nat.Prime 12048837557 := by
  refine lucas_cert 12048837557 2 [2, 7, 661, 93001] ?_ ?_ ?_
  · intro q hq hdvd
    have hfac : (12048837557 : ℕ) - 1 = 2 ^ 2 * (7 ^ 2 * (661 * 93001)) := by norm_num
    rw [hfac] at hdvd
    rcases prime_dvd_mul_cases hq hdvd with h | hdvd
    · rw [prime_dvd_pow_prime hq (by norm_num) h]
      decide
    rcases prime_dvd_mul_cases hq hdvd with h | hdvd
    · rw [prime_dvd_pow_prime hq (by norm_num) h]
      decide
    rcases prime_dvd_mul_cases hq hdvd with h | hdvd
    · rw [prime_dvd_prime hq (by norm_num) h]
      decide
    rw [prime_dvd_prime hq (by norm_num) hdvd]
    decide
  · exact zmod_pow_eq_one_of_powModF 12048837557 2 64 (by decide) (by decide)
  · intro q hqmem
    fin_cases hqmem
    · exact zmod_pow_ne_one_of_powModF 12048837557 2 ((12048837557 - 1) / 2) 64 (by decide) (by decide)
    · exact zmod_pow_ne_one_of_powModF 12048837557 2 ((12048837557 - 1) / 7) 64 (by decide) (by decide)
    · exact zmod_pow_ne_one_of_powModF 12048837557 2 ((12048837557 - 1) / 661) 64 (by decide) (by decide)
    · exact zmod_pow_ne_one_of_powModF 12048837557 2 ((12048837557 - 1) / 93001) 64 (by decide) (by decide)

theorem prime_5156902474397 : Nat.Prime 5156902474397 := by
  refine lucas_cert 5156902474397 2 [2, 107, 12048837557] ?_ ?_ ?_
  · intro q hq hdvd
    have hfac : (5156902474397 : ℕ) - 1 = 2 ^ 2 * (107 * 12048837557) := by norm_num
    rw [hfac] at hdvd
    rcases prime_dvd_mul_cases hq hdvd with h | hdvd
    · rw [prime_dvd_pow_prime hq (by norm_num) h]
      decide
    rcases prime_dvd_mul_cases hq hdvd with h | hdvd
    · rw [prime_dvd_prime hq (by norm_num) h]
      decide
    rw [prime_dvd_prime hq prime_12048837557 hdvd]
    decide
  · exact zmod_pow_eq_one_of_powModF 5156902474397 2 64 (by decide) (by decide)
  · intro q hqmem
    fin_cases hqmem
    · exact zmod_pow_ne_one_of_powModF 5156902474397 2 ((5156902474397 - 1) / 2) 64 (by decide) (by decide)
    · exact zmod_pow_ne_one_of_powModF 5156902474397 2 ((5156902474397 - 1) / 107) 64 (by decide) (by decide)
    · exact zmod_pow_ne_one_of_powModF 5156902474397 2 ((5156902474397 - 1) / 12048837557) 64 (by decide) (by decide)

theorem prime_1670836401704629 : Nat.Prime 1670836401704629 := by
  refine lucas_cert 1670836401704629 2 [2, 3, 5156902474397] ?_ ?_ ?_
  · intro q hq hdvd
    have hfac : (1670836401704629 : ℕ) - 1 = 2 ^ 2 * (3 ^ 4 * 5156902474397) := by norm_num
    rw [hfac] at hdvd
    rcases prime_dvd_mul_cases hq hdvd with h | hdvd
    · rw [prime_dvd_pow_prime hq (by norm_num) h]
      decide
    rcases prime_dvd_mul_cases hq hdvd with h | hdvd
    · rw [prime_dvd_pow_prime hq (by norm_num) h]
      decide
    rw [prime_dvd_prime hq prime_5156902474397 hdvd]
    decide
  · exact zmod_pow_eq_one_of_powModF 1670836401704629 2 64 (by decide) (by decide)
  · intro q hqmem
    fin_cases hqmem
    · exact zmod_pow_ne_one_of_powModF 1670836401704629 2 ((1670836401704629 - 1) / 2) 64 (by decide) (by decide)
    · exact zmod_pow_ne_one_of_powModF 1670836401704629 2 ((1670836401704629 - 1) / 3) 64 (by decide) (by decide)
    · exact zmod_pow_ne_one_of_powModF 1670836401704629 2 ((1670836401704629 - 1) / 5156902474397) 64 (by decide) (by decide)

theorem prime_65865678001877903 : Nat.Prime 65865678001877903 := by
  refine lucas_cert 65865678001877903 5 [2, 83, 379, 1637, 639533339] ?_ ?_ ?_
  · intro q hq hdvd
    have hfac : (65865678001877903 : ℕ) - 1 = 2 * (83 * (379 * (1637 * 639533339))) := by norm_num
    rw [hfac] at hdvd
    rcases prime_dvd_mul_cases hq hdvd with h | hdvd
    · rw [prime_dvd_prime hq (by norm_num) h]
      decide
    rcases prime_dvd_mul_cases hq hdvd with h | hdvd
    · rw [prime_dvd_prime hq (by norm_num) h]
      decide
    rcases prime_dvd_mul_cases hq hdvd with h | hdvd
    · rw [prime_dvd_prime hq (by norm_num) h]
      decide
    rcases prime_dvd_mul_cases hq hdvd with h | hdvd
    · rw [prime_dvd_prime hq (by norm_num) h]
      decide
    rw [prime_dvd_prime hq prime_639533339 hdvd]
    decide
  · exact zmod_pow_eq_one_of_powModF 65865678001877903 5 64 (by decide) (by decide)
  · intro q hqmem
    fin_cases hqmem
    · exact zmod_pow_ne_one_of_powModF 65865678001877903 5 ((65865678001877903 - 1) / 2) 64 (by decide) (by decide)
    · exact zmod_pow_ne_one_of_powModF 65865678001877903 5 ((65865678001877903 - 1) / 83) 64 (by decide) (by decide)
    · exact zmod_pow_ne_one_of_powModF 65865678001877903 5 ((65865678001877903 - 1) / 379) 64 (by decide) (by decide)
    · exact zmod_pow_ne_one_of_powModF 65865678001877903 5 ((65865678001877903 - 1) / 1637) 64 (by decide) (by decide)
    · exact zmod_pow_ne_one_of_powModF 65865678001877903 5 ((65865678001877903 - 1) / 639533339) 64 (by decide) (by decide)

theorem prime_13818364434197438864469338081 : Nat.Prime 13818364434197438864469338081 := by
  refine lucas_cert 13818364434197438864469338081 3 [2, 5, 823, 1593227, 65865678001877903] ?_ ?_ ?_
  · intro q hq hdvd
    have hfac : (13818364434197438864469338081 : ℕ) - 1 = 2 ^ 5 * (5 * (823 * (1593227 * 65865678001877903))) := by norm_num
    rw [hfac] at hdvd
    rcases prime_dvd_mul_cases hq hdvd with h | hdvd
    · rw [prime_dvd_pow_prime hq (by norm_num) h]
      decide
    rcases prime_dvd_mul_cases hq hdvd with h | hdvd
    · rw [prime_dvd_prime hq (by norm_num) h]
      decide
    rcases prime_dvd_mul_cases hq hdvd with h | hdvd
    · rw [prime_dvd_prime hq (by norm_num) h]
      decide
    rcases prime_dvd_mul_cases hq hdvd with h | hdvd
    · rw [prime_dvd_prime hq (by norm_num) h]
      decide
    rw [prime_dvd_prime hq prime_65865678001877903 hdvd]
    decide
  · exact zmod_pow_eq_one_of_powModF 13818364434197438864469338081 3 128 (by decide) (by decide)
  · intro q hqmem
    fin_cases hqmem
    · exact zmod_pow_ne_one_of_powModF 13818364434197438864469338081 3 ((13818364434197438864469338081 - 1) / 2) 128 (by decide) (by decide)
    · exact zmod_pow_ne_one_of_powModF 13818364434197438864469338081 3 ((13818364434197438864469338081 - 1) / 5) 128 (by decide) (by decide)
    · exact zmod_pow_ne_one_of_powModF 13818364434197438864469338081 3 ((13818364434197438864469338081 - 1) / 823) 128 (by decide) (by decide)
    · exact zmod_pow_ne_one_of_powModF 13818364434197438864469338081 3 ((13818364434197438864469338081 - 1) / 1593227) 128 (by decide) (by decide)
    · exact zmod_pow_ne_one_of_powModF 13818364434197438864469338081 3 ((13818364434197438864469338081 - 1) / 65865678001877903) 128 (by decide) (by decide)

theorem prime_21888242871839275222246405745257275088548364400416034343698204186575808495617 : Nat.Prime 21888242871839275222246405745257275088548364400416034343698204186575808495617 := by
  refine lucas_cert 21888242871839275222246405745257275088548364400416034343698204186575808495617 5 [2, 3, 13, 29, 983, 11003, 237073, 405928799, 1670836401704629, 13818364434197438864469338081] ?_ ?_ ?_
  · intro q hq hdvd
    have hfac : (21888242871839275222246405745257275088548364400416034343698204186575808495617 : ℕ) - 1 = 2 ^ 28 * (3 ^ 2 * (13 * (29 * (983 * (11003 * (237073 * (405928799 * (1670836401704629 * 13818364434197438864469338081)))))))) := by norm_num
    rw [hfac] at hdvd
    rcases prime_dvd_mul_cases hq hdvd with h | hdvd
    · rw [prime_dvd_pow_prime hq (by norm_num) h]
      decide
    rcases prime_dvd_mul_cases hq hdvd with h | hdvd
    · rw [prime_dvd_pow_prime hq (by norm_num) h]
      decide
    rcases prime_dvd_mul_cases hq hdvd with h | hdvd
    · rw [prime_dvd_prime hq (by norm_num) h]
      decide
    rcases prime_dvd_mul_cases hq hdvd with h | hdvd
    · rw [prime_dvd_prime hq (by norm_num) h]
      decide
    rcases prime_dvd_mul_cases hq hdvd with h | hdvd
    · rw [prime_dvd_prime hq (by norm_num) h]
      decide
    rcases prime_dvd_mul_cases hq hdvd with h | hdvd
    · rw [prime_dvd_prime hq (by norm_num) h]
      decide
    rcases prime_dvd_mul_cases hq hdvd with h | hdvd
    · rw [prime_dvd_prime hq (by norm_num) h]
      decide
    rcases prime_dvd_mul_cases hq hdvd with h | hdvd
    · rw [prime_dvd_prime hq prime_405928799 h]
      decide
    rcases prime_dvd_mul_cases hq hdvd with h | hdvd
    · rw [prime_dvd_prime hq prime_1670836401704629 h]
      decide
    rw [prime_dvd_prime hq prime_13818364434197438864469338081 hdvd]
    decide
  · exact zmod_pow_eq_one_of_powModF 21888242871839275222246405745257275088548364400416034343698204186575808495617 5 255 (by decide) (by decide)
  · intro q hqmem
    fin_cases hqmem
    · exact zmod_pow_ne_one_of_powModF 21888242871839275222246405745257275088548364400416034343698204186575808495617 5 ((21888242871839275222246405745257275088548364400416034343698204186575808495617 - 1) / 2) 255 (by decide) (by decide)
    · exact zmod_pow_ne_one_of_powModF 21888242871839275222246405745257275088548364400416034343698204186575808495617 5 ((21888242871839275222246405745257275088548364400416034343698204186575808495617 - 1) / 3) 255 (by decide) (by decide)
    · exact zmod_pow_ne_one_of_powModF 21888242871839275222246405745257275088548364400416034343698204186575808495617 5 ((21888242871839275222246405745257275088548364400416034343698204186575808495617 - 1) / 13) 255 (by decide) (by decide)
    · exact zmod_pow_ne_one_of_powModF 21888242871839275222246405745257275088548364400416034343698204186575808495617 5 ((21888242871839275222246405745257275088548364400416034343698204186575808495617 - 1) / 29) 255 (by decide) (by decide)
    · exact zmod_pow_ne_one_of_powModF 21888242871839275222246405745257275088548364400416034343698204186575808495617 5 ((21888242871839275222246405745257275088548364400416034343698204186575808495617 - 1) / 983) 255 (by decide) (by decide)
    · exact zmod_pow_ne_one_of_powModF 21888242871839275222246405745257275088548364400416034343698204186575808495617 5 ((21888242871839275222246405745257275088548364400416034343698204186575808495617 - 1) / 11003) 255 (by decide) (by decide)
    · exact zmod_pow_ne_one_of_powModF 21888242871839275222246405745257275088548364400416034343698204186575808495617 5 ((21888242871839275222246405745257275088548364400416034343698204186575808495617 - 1) / 237073) 255 (by decide) (by decide)
    · exact zmod_pow_ne_one_of_powModF 21888242871839275222246405745257275088548364400416034343698204186575808495617 5 ((21888242871839275222246405745257275088548364400416034343698204186575808495617 - 1) / 405928799) 255 (by decide) (by decide)
    · exact zmod_pow_ne_one_of_powModF 21888242871839275222246405745257275088548364400416034343698204186575808495617 5 ((21888242871839275222246405745257275088548364400416034343698204186575808495617 - 1) / 1670836401704629) 255 (by decide) (by decide)
    · exact zmod_pow_ne_one_of_powModF 21888242871839275222246405745257275088548364400416034343698204186575808495617 5 ((21888242871839275222246405745257275088548364400416034343698204186575808495617 - 1) / 13818364434197438864469338081) 255 (by decide) (by decide)

instance fact_prime_pBN : Fact (Nat.Prime 21888242871839275222246405745257275088548364400416034343698204186575808495617) := ⟨prime_21888242871839275222246405745257275088548364400416034343698204186575808495617⟩

/-! ## The BN254 scalar field `Fr`

`field.rs` is not among the checked sources, so `Fr` is modelled from the
specification (§4.1): the prime field of order `pBN`, with `from_bytes`
reducing any 32-byte big-endian input modulo `pBN` and `inverse` failing
exactly on zero. -/

/-- The BN254 scalar modulus (spec §3: "prime order p = BN254 scalar
modulus"). -/
def pBN : ℕ := 21888242871839275222246405745257275088548364400416034343698204186575808495617

instance fact_pBN_prime : Fact (Nat.Prime pBN) :=
  ⟨prime_21888242871839275222246405745257275088548364400416034343698204186575808495617⟩

/-- The scalar field. -/
abbrev Fr : Type := ZMod pBN

/-- Big-endian interpretation of a byte list as a natural number. -/
def beNat (bs : List ℕ) : ℕ := bs.foldl (fun acc b => acc * 256 + b) 0

/-- Modelled from the spec (§4.1, `field.rs` missing from the sources):
`Fr::from_bytes(be32)` reduces modulo p and accepts any input. -/
def Fr.fromBytes (bs : List ℕ) : Fr := (beNat bs : Fr)

/-- Modelled from the spec (§4.1, `field.rs` missing from the sources):
`Fr::from_u64`.  Callers model Rust `u64` overflow by passing the wrapped
value explicitly. -/
def Fr.fromU64 (v : ℕ) : Fr := (v : Fr)

/-- Modelled from the spec (§4.1, `field.rs` missing from the sources):
"`inverse` returns a distinguished none when the input is zero", otherwise
the multiplicative inverse. -/
def Fr.inverse (x : Fr) : Option Fr := if x = 0 then none else some x⁻¹

theorem Fr.inverse_eq_none_iff (x : Fr) : Fr.inverse x = none ↔ x = 0 := by
  unfold Fr.inverse
  by_cases h : x = 0 <;> simp [h]

theorem Fr.inverse_mul_self (x : Fr) (h : x ≠ 0) :
    Fr.inverse x = some x⁻¹ ∧ x * x⁻¹ = 1 := by
  refine ⟨by simp [Fr.inverse, h], ?_⟩
  field_simp

/-! ## Sum-check (`sumcheck.rs`) -/

/-- `BARY_BYTES` from `sumcheck.rs`: barycentric Lagrange denominators for
evaluation points `{0, ..., 7}` as 32-byte big-endian constants. -/
def BARY_BYTES : Fin 8 → List ℕ :=
  ![ [0x30, 0x64, 0x4e, 0x72, 0xe1, 0x31, 0xa0, 0x29, 0xb8, 0x50, 0x45, 0xb6, 0x81, 0x81,
      0x58, 0x5d, 0x28, 0x33, 0xe8, 0x48, 0x79, 0xb9, 0x70, 0x91, 0x43, 0xe1, 0xf5, 0x93,
      0xef, 0xff, 0xec, 0x51],
     [0x00, 0x00, 0x00, 0x00, 0x00, 0x00, 0x00, 0x00, 0x00, 0x00, 0x00, 0x00, 0x00, 0x00,
      0x00, 0x00, 0x00, 0x00, 0x00, 0x00, 0x00, 0x00, 0x00, 0x00, 0x00, 0x00, 0x00, 0x00,
      0x00, 0x00, 0x02, 0xd0],
     [0x30, 0x64, 0x4e, 0x72, 0xe1, 0x31, 0xa0, 0x29, 0xb8, 0x50, 0x45, 0xb6, 0x81, 0x81,
      0x58, 0x5d, 0x28, 0x33, 0xe8, 0x48, 0x79, 0xb9, 0x70, 0x91, 0x43, 0xe1, 0xf5, 0x93,
      0xef, 0xff, 0xff, 0x11],
     [0x00, 0x00, 0x00, 0x00, 0x00, 0x00, 0x00, 0x00, 0x00, 0x00, 0x00, 0x00, 0x00, 0x00,
      0x00, 0x00, 0x00, 0x00, 0x00, 0x00, 0x00, 0x00, 0x00, 0x00, 0x00, 0x00, 0x00, 0x00,
      0x00, 0x00, 0x00, 0x90],
     [0x30, 0x64, 0x4e, 0x72, 0xe1, 0x31, 0xa0, 0x29, 0xb8, 0x50, 0x45, 0xb6, 0x81, 0x81,
      0x58, 0x5d, 0x28, 0x33, 0xe8, 0x48, 0x79, 0xb9, 0x70, 0x91, 0x43, 0xe1, 0xf5, 0x93,
      0xef, 0xff, 0xff, 0x71],
     [0x00, 0x00, 0x00, 0x00, 0x00, 0x00, 0x00, 0x00, 0x00, 0x00, 0x00, 0x00, 0x00, 0x00,
      0x00, 0x00, 0x00, 0x00, 0x00, 0x00, 0x00, 0x00, 0x00, 0x00, 0x00, 0x00, 0x00, 0x00,
      0x00, 0x00, 0x00, 0xf0],
     [0x30, 0x64, 0x4e, 0x72, 0xe1, 0x31, 0xa0, 0x29, 0xb8, 0x50, 0x45, 0xb6, 0x81, 0x81,
      0x58, 0x5d, 0x28, 0x33, 0xe8, 0x48, 0x79, 0xb9, 0x70, 0x91, 0x43, 0xe1, 0xf5, 0x93,
      0xef, 0xff, 0xfd, 0x31],
     [0x00, 0x00, 0x00, 0x00, 0x00, 0x00, 0x00, 0x00, 0x00, 0x00, 0x00, 0x00, 0x00, 0x00,
      0x00, 0x00, 0x00, 0x00, 0x00, 0x00, 0x00, 0x00, 0x00, 0x00, 0x00, 0x00, 0x00, 0x00,
      0x00, 0x00, 0x13, 0xb0] ]

/-- `compute_next_target_sum` from `sumcheck.rs`, with the two loops of
length `BATCHED_RELATION_PARTIAL_LENGTH = 8` and the forward/backward batch
inversion passes unrolled in exactly the loop order of the source. -/
def compute_next_target_sum (u : Fin 8 → Fr) (χ : Fr) : Except String Fr :=
  let c0 := χ - Fr.fromU64 0
  let c1 := χ - Fr.fromU64 1
  let c2 := χ - Fr.fromU64 2
  let c3 := χ - Fr.fromU64 3
  let c4 := χ - Fr.fromU64 4
  let c5 := χ - Fr.fromU64 5
  let c6 := χ - Fr.fromU64 6
  let c7 := χ - Fr.fromU64 7
  let b_poly := 1 * c0 * c1 * c2 * c3 * c4 * c5 * c6 * c7
  let d0 := Fr.fromBytes (BARY_BYTES 0) * c0
  let d1 := Fr.fromBytes (BARY_BYTES 1) * c1
  let d2 := Fr.fromBytes (BARY_BYTES 2) * c2
  let d3 := Fr.fromBytes (BARY_BYTES 3) * c3
  let d4 := Fr.fromBytes (BARY_BYTES 4) * c4
  let d5 := Fr.fromBytes (BARY_BYTES 5) * c5
  let d6 := Fr.fromBytes (BARY_BYTES 6) * c6
  let d7 := Fr.fromBytes (BARY_BYTES 7) * c7
  let p0 := d0
  let p1 := p0 * d1
  let p2 := p1 * d2
  let p3 := p2 * d3
  let p4 := p3 * d4
  let p5 := p4 * d5
  let p6 := p5 * d6
  let p7 := p6 * d7
  match Fr.inverse p7 with
  | none => .error "denom zero"
  | some invAcc7 =>
    let inv7 := invAcc7 * p6
    let acc6 := invAcc7 * d7
    let inv6 := acc6 * p5
    let acc5 := acc6 * d6
    let inv5 := acc5 * p4
    let acc4 := acc5 * d5
    let inv4 := acc4 * p3
    let acc3 := acc4 * d4
    let inv3 := acc3 * p2
    let acc2 := acc3 * d3
    let inv2 := acc2 * p1
    let acc1 := acc2 * d2
    let inv1 := acc1 * p0
    let acc0 := acc1 * d1
    let inv0 := acc0
    let s := 0 + u 0 * inv0 + u 1 * inv1 + u 2 * inv2 + u 3 * inv3 + u 4 * inv4
      + u 5 * inv5 + u 6 * inv6 + u 7 * inv7
    .ok (b_poly * s)

/-- The product of the eight barycentric denominators at challenge `χ`. -/
def denomProd (χ : Fr) : Fr :=
  ∏ i : Fin 8, Fr.fromBytes (BARY_BYTES i) * (χ - (i.val : Fr))

/-- `partially_evaluate_pow` from `sumcheck.rs`. -/
def partially_evaluate_pow (gate_challenge pow_partial round_challenge : Fr) : Fr :=
  pow_partial * (1 + round_challenge * (gate_challenge - 1))

/-- The round loop of `verify_sumcheck` (`for round in 0..log_n`), starting at
round `r` with `n` rounds remaining and running state
`(round_target, pow_partial_evaluation)`.  `check_sum` is inlined as
`univ r 0 + univ r 1 = target`. -/
def sumcheckLoop (univ : ℕ → Fin 8 → Fr) (uCh gCh : ℕ → Fr) :
    ℕ → ℕ → Fr → Fr → Except String (Fr × Fr)
  | _, 0, target, pow => .ok (target, pow)
  | r, n + 1, target, pow =>
    if univ r 0 + univ r 1 = target then
      match compute_next_target_sum (univ r) (uCh r) with
      | .error e => .error e
      | .ok t' => sumcheckLoop univ uCh gCh (r + 1) n t'
          (partially_evaluate_pow (gCh r) pow (uCh r))
    else .error "round failed"

/-- `verify_sumcheck` from `sumcheck.rs`.  The relation accumulator
`accumulate_relation_evaluations` lives in `relations.rs`, which is not among
the checked sources: it is taken as an explicit function argument (of the
41 sum-check evaluations, the relation parameters, the alphas and the final
pow-partial value), together with the transcript fields it consumes. -/
def verify_sumcheck {R A : Type}
    (accumulate : (Fin 41 → Fr) → R → A → Fr → Fr)
    (univ : ℕ → Fin 8 → Fr) (evals : Fin 41 → Fr)
    (uCh gCh : ℕ → Fr) (relParams : R) (alphas : A)
    (logN : ℕ) : Except String Unit :=
  match sumcheckLoop univ uCh gCh 0 logN 0 1 with
  | .error e => .error e
  | .ok (target, pow) =>
    if accumulate evals relParams alphas pow = target then .ok ()
    else .error "sumcheck final mismatch"

/-- The sequence of round targets: `0` initially, then the barycentric
extrapolation of round `r`'s univariate at round `r`'s challenge (the value
does not depend on the previous target). -/
def targetSeq (univ : ℕ → Fin 8 → Fr) (uCh : ℕ → Fr) : ℕ → Fr
  | 0 => 0
  | r + 1 => ((compute_next_target_sum (univ r) (uCh r)).toOption).getD 0

/-- The pow-partial accumulator sequence. -/
def powSeq (uCh gCh : ℕ → Fr) : ℕ → Fr
  | 0 => 1
  | r + 1 => partially_evaluate_pow (gCh r) (powSeq uCh gCh r) (uCh r)

/-- The eight barycentric denominators `BARY[i] * (χ - i)` at challenge `χ`. -/
def denoms (χ : Fr) (i : Fin 8) : Fr :=
  Fr.fromBytes (BARY_BYTES i) * (χ - Fr.fromU64 i.val)

theorem denomProd_expand (χ : Fr) :
    denomProd χ = denoms χ 0 * denoms χ 1 * denoms χ 2 * denoms χ 3 * denoms χ 4
      * denoms χ 5 * denoms χ 6 * denoms χ 7 := by
  show (∏ i : Fin 8, Fr.fromBytes (BARY_BYTES i) * (χ - (i.val : Fr))) = _
  rw [Fin.prod_univ_eight]
  rfl

/-- `B(χ)` accumulated in the loop order of the source. -/
def bPoly (χ : Fr) : Fr :=
  1 * (χ - Fr.fromU64 0) * (χ - Fr.fromU64 1) * (χ - Fr.fromU64 2) * (χ - Fr.fromU64 3)
    * (χ - Fr.fromU64 4) * (χ - Fr.fromU64 5) * (χ - Fr.fromU64 6) * (χ - Fr.fromU64 7)

/-- The forward prefix products `prefix[i] = denom[0] * ... * denom[i]` of the
batch-inversion pass. -/
def prefixP (χ : Fr) : Fin 8 → Fr :=
  ![denoms χ 0,
    denoms χ 0 * denoms χ 1,
    denoms χ 0 * denoms χ 1 * denoms χ 2,
    denoms χ 0 * denoms χ 1 * denoms χ 2 * denoms χ 3,
    denoms χ 0 * denoms χ 1 * denoms χ 2 * denoms χ 3 * denoms χ 4,
    denoms χ 0 * denoms χ 1 * denoms χ 2 * denoms χ 3 * denoms χ 4 * denoms χ 5,
    denoms χ 0 * denoms χ 1 * denoms χ 2 * denoms χ 3 * denoms χ 4 * denoms χ 5 * denoms χ 6,
    denoms χ 0 * denoms χ 1 * denoms χ 2 * denoms χ 3 * denoms χ 4 * denoms χ 5 * denoms χ 6 * denoms χ 7]

/-- The individual inverses produced by the backward unwind of the batch
inversion, given `a` = the inverse of the full prefix product. -/
def batchInvWith (χ : Fr) (a : Fr) : Fin 8 → Fr :=
  ![a * denoms χ 7 * denoms χ 6 * denoms χ 5 * denoms χ 4 * denoms χ 3 * denoms χ 2 * denoms χ 1,
    a * denoms χ 7 * denoms χ 6 * denoms χ 5 * denoms χ 4 * denoms χ 3 * denoms χ 2 * prefixP χ 0,
    a * denoms χ 7 * denoms χ 6 * denoms χ 5 * denoms χ 4 * denoms χ 3 * prefixP χ 1,
    a * denoms χ 7 * denoms χ 6 * denoms χ 5 * denoms χ 4 * prefixP χ 2,
    a * denoms χ 7 * denoms χ 6 * denoms χ 5 * prefixP χ 3,
    a * denoms χ 7 * denoms χ 6 * prefixP χ 4,
    a * denoms χ 7 * prefixP χ 5,
    a * prefixP χ 6]

/-- The Montgomery batch-inversion pass of `compute_next_target_sum`: one
field inverse of the full prefix product, unwound into the eight individual
inverses; fails exactly when that inverse fails. -/
def batchInverses (χ : Fr) : Option (Fin 8 → Fr) :=
  (Fr.inverse (prefixP χ 7)).map (batchInvWith χ)

/-- `compute_next_target_sum` factored through the batch-inversion pass. -/
theorem cnts_match (u : Fin 8 → Fr) (χ : Fr) :
    compute_next_target_sum u χ =
      match batchInverses χ with
      | none => .error "denom zero"
      | some inv => .ok (bPoly χ *
          (0 + u 0 * inv 0 + u 1 * inv 1 + u 2 * inv 2 + u 3 * inv 3 + u 4 * inv 4
            + u 5 * inv 5 + u 6 * inv 6 + u 7 * inv 7)) := by
  show (match Fr.inverse (prefixP χ 7) with
    | none => (Except.error "denom zero" : Except String Fr)
    | some a => .ok (bPoly χ *
        (0 + u 0 * batchInvWith χ a 0 + u 1 * batchInvWith χ a 1 + u 2 * batchInvWith χ a 2
          + u 3 * batchInvWith χ a 3 + u 4 * batchInvWith χ a 4 + u 5 * batchInvWith χ a 5
          + u 6 * batchInvWith χ a 6 + u 7 * batchInvWith χ a 7))) = _
  unfold batchInverses
  cases Fr.inverse (prefixP χ 7) <;> rfl

theorem prefixP_top (χ : Fr) : prefixP χ 7 = denomProd χ := by
  rw [denomProd_expand]; rfl

theorem cnts_error_iff (u : Fin 8 → Fr) (χ : Fr) :
    compute_next_target_sum u χ = .error "denom zero" ↔ denomProd χ = 0 := by
  rw [cnts_match]
  unfold batchInverses
  rw [prefixP_top]
  by_cases h : denomProd χ = 0
  · simp [Fr.inverse, h]
  · simp [Fr.inverse, h]

theorem cnts_ok_iff (u : Fin 8 → Fr) (χ : Fr) :
    (∃ v, compute_next_target_sum u χ = .ok v) ↔ denomProd χ ≠ 0 := by
  rw [cnts_match]
  unfold batchInverses
  rw [prefixP_top]
  by_cases h : denomProd χ = 0
  · simp [Fr.inverse, h]
  · simp [Fr.inverse, h]

/-- Nonzero denominators make the full prefix product nonzero. -/
theorem denomProd_ne_zero {χ : Fr} (h : ∀ i : Fin 8, denoms χ i ≠ 0) :
    denomProd χ ≠ 0 := by
  rw [denomProd_expand]
  exact mul_ne_zero (mul_ne_zero (mul_ne_zero (mul_ne_zero (mul_ne_zero (mul_ne_zero
    (mul_ne_zero (h 0) (h 1)) (h 2)) (h 3)) (h 4)) (h 5)) (h 6)) (h 7)

/-- Under nonzero denominators, each batch-produced inverse is a true
inverse: `denom[i] * inv[i] = 1` (spec §9, batch inversion as a correctness
anchor). -/
theorem batchInvWith_mul_self (χ : Fr) (h : ∀ i : Fin 8, denoms χ i ≠ 0) :
    ∀ i : Fin 8, denoms χ i * batchInvWith χ (prefixP χ 7)⁻¹ i = 1 := by
  have hp : (denoms χ 0 * denoms χ 1 * denoms χ 2 * denoms χ 3 * denoms χ 4 * denoms χ 5 * denoms χ 6 * denoms χ 7) ≠ 0 := by
    have := denomProd_ne_zero h
    rw [denomProd_expand] at this
    exact this
  intro i
  fin_cases i
  · show denoms χ 0 * ((prefixP χ 7)⁻¹ * denoms χ 7 * denoms χ 6 * denoms χ 5 * denoms χ 4 * denoms χ 3 * denoms χ 2 * denoms χ 1) = 1
    calc denoms χ 0 * ((prefixP χ 7)⁻¹ * denoms χ 7 * denoms χ 6 * denoms χ 5 * denoms χ 4 * denoms χ 3 * denoms χ 2 * denoms χ 1)
        = (denoms χ 0 * denoms χ 1 * denoms χ 2 * denoms χ 3 * denoms χ 4 * denoms χ 5 * denoms χ 6 * denoms χ 7)⁻¹ * (denoms χ 0 * denoms χ 1 * denoms χ 2 * denoms χ 3 * denoms χ 4 * denoms χ 5 * denoms χ 6 * denoms χ 7) := by
          show denoms χ 0 * ((denoms χ 0 * denoms χ 1 * denoms χ 2 * denoms χ 3 * denoms χ 4 * denoms χ 5 * denoms χ 6 * denoms χ 7)⁻¹ * denoms χ 7 * denoms χ 6 * denoms χ 5 * denoms χ 4 * denoms χ 3 * denoms χ 2 * denoms χ 1) = _
          ring
      _ = 1 := inv_mul_cancel₀ hp
  · show denoms χ 1 * ((prefixP χ 7)⁻¹ * denoms χ 7 * denoms χ 6 * denoms χ 5 * denoms χ 4 * denoms χ 3 * denoms χ 2 * (denoms χ 0)) = 1
    calc denoms χ 1 * ((prefixP χ 7)⁻¹ * denoms χ 7 * denoms χ 6 * denoms χ 5 * denoms χ 4 * denoms χ 3 * denoms χ 2 * (denoms χ 0))
        = (denoms χ 0 * denoms χ 1 * denoms χ 2 * denoms χ 3 * denoms χ 4 * denoms χ 5 * denoms χ 6 * denoms χ 7)⁻¹ * (denoms χ 0 * denoms χ 1 * denoms χ 2 * denoms χ 3 * denoms χ 4 * denoms χ 5 * denoms χ 6 * denoms χ 7) := by
          show denoms χ 1 * ((denoms χ 0 * denoms χ 1 * denoms χ 2 * denoms χ 3 * denoms χ 4 * denoms χ 5 * denoms χ 6 * denoms χ 7)⁻¹ * denoms χ 7 * denoms χ 6 * denoms χ 5 * denoms χ 4 * denoms χ 3 * denoms χ 2 * (denoms χ 0)) = _
          ring
      _ = 1 := inv_mul_cancel₀ hp
  · show denoms χ 2 * ((prefixP χ 7)⁻¹ * denoms χ 7 * denoms χ 6 * denoms χ 5 * denoms χ 4 * denoms χ 3 * (denoms χ 0 * denoms χ 1)) = 1
    calc denoms χ 2 * ((prefixP χ 7)⁻¹ * denoms χ 7 * denoms χ 6 * denoms χ 5 * denoms χ 4 * denoms χ 3 * (denoms χ 0 * denoms χ 1))
        = (denoms χ 0 * denoms χ 1 * denoms χ 2 * denoms χ 3 * denoms χ 4 * denoms χ 5 * denoms χ 6 * denoms χ 7)⁻¹ * (denoms χ 0 * denoms χ 1 * denoms χ 2 * denoms χ 3 * denoms χ 4 * denoms χ 5 * denoms χ 6 * denoms χ 7) := by
          show denoms χ 2 * ((denoms χ 0 * denoms χ 1 * denoms χ 2 * denoms χ 3 * denoms χ 4 * denoms χ 5 * denoms χ 6 * denoms χ 7)⁻¹ * denoms χ 7 * denoms χ 6 * denoms χ 5 * denoms χ 4 * denoms χ 3 * (denoms χ 0 * denoms χ 1)) = _
          ring
      _ = 1 := inv_mul_cancel₀ hp
  · show denoms χ 3 * ((prefixP χ 7)⁻¹ * denoms χ 7 * denoms χ 6 * denoms χ 5 * denoms χ 4 * (denoms χ 0 * denoms χ 1 * denoms χ 2)) = 1
    calc denoms χ 3 * ((prefixP χ 7)⁻¹ * denoms χ 7 * denoms χ 6 * denoms χ 5 * denoms χ 4 * (denoms χ 0 * denoms χ 1 * denoms χ 2))
        = (denoms χ 0 * denoms χ 1 * denoms χ 2 * denoms χ 3 * denoms χ 4 * denoms χ 5 * denoms χ 6 * denoms χ 7)⁻¹ * (denoms χ 0 * denoms χ 1 * denoms χ 2 * denoms χ 3 * denoms χ 4 * denoms χ 5 * denoms χ 6 * denoms χ 7) := by
          show denoms χ 3 * ((denoms χ 0 * denoms χ 1 * denoms χ 2 * denoms χ 3 * denoms χ 4 * denoms χ 5 * denoms χ 6 * denoms χ 7)⁻¹ * denoms χ 7 * denoms χ 6 * denoms χ 5 * denoms χ 4 * (denoms χ 0 * denoms χ 1 * denoms χ 2)) = _
          ring
      _ = 1 := inv_mul_cancel₀ hp
  · show denoms χ 4 * ((prefixP χ 7)⁻¹ * denoms χ 7 * denoms χ 6 * denoms χ 5 * (denoms χ 0 * denoms χ 1 * denoms χ 2 * denoms χ 3)) = 1
    calc denoms χ 4 * ((prefixP χ 7)⁻¹ * denoms χ 7 * denoms χ 6 * denoms χ 5 * (denoms χ 0 * denoms χ 1 * denoms χ 2 * denoms χ 3))
        = (denoms χ 0 * denoms χ 1 * denoms χ 2 * denoms χ 3 * denoms χ 4 * denoms χ 5 * denoms χ 6 * denoms χ 7)⁻¹ * (denoms χ 0 * denoms χ 1 * denoms χ 2 * denoms χ 3 * denoms χ 4 * denoms χ 5 * denoms χ 6 * denoms χ 7) := by
          show denoms χ 4 * ((denoms χ 0 * denoms χ 1 * denoms χ 2 * denoms χ 3 * denoms χ 4 * denoms χ 5 * denoms χ 6 * denoms χ 7)⁻¹ * denoms χ 7 * denoms χ 6 * denoms χ 5 * (denoms χ 0 * denoms χ 1 * denoms χ 2 * denoms χ 3)) = _
          ring
      _ = 1 := inv_mul_cancel₀ hp
  · show denoms χ 5 * ((prefixP χ 7)⁻¹ * denoms χ 7 * denoms χ 6 * (denoms χ 0 * denoms χ 1 * denoms χ 2 * denoms χ 3 * denoms χ 4)) = 1
    calc denoms χ 5 * ((prefixP χ 7)⁻¹ * denoms χ 7 * denoms χ 6 * (denoms χ 0 * denoms χ 1 * denoms χ 2 * denoms χ 3 * denoms χ 4))
        = (denoms χ 0 * denoms χ 1 * denoms χ 2 * denoms χ 3 * denoms χ 4 * denoms χ 5 * denoms χ 6 * denoms χ 7)⁻¹ * (denoms χ 0 * denoms χ 1 * denoms χ 2 * denoms χ 3 * denoms χ 4 * denoms χ 5 * denoms χ 6 * denoms χ 7) := by
          show denoms χ 5 * ((denoms χ 0 * denoms χ 1 * denoms χ 2 * denoms χ 3 * denoms χ 4 * denoms χ 5 * denoms χ 6 * denoms χ 7)⁻¹ * denoms χ 7 * denoms χ 6 * (denoms χ 0 * denoms χ 1 * denoms χ 2 * denoms χ 3 * denoms χ 4)) = _
          ring
      _ = 1 := inv_mul_cancel₀ hp
  · show denoms χ 6 * ((prefixP χ 7)⁻¹ * denoms χ 7 * (denoms χ 0 * denoms χ 1 * denoms χ 2 * denoms χ 3 * denoms χ 4 * denoms χ 5)) = 1
    calc denoms χ 6 * ((prefixP χ 7)⁻¹ * denoms χ 7 * (denoms χ 0 * denoms χ 1 * denoms χ 2 * denoms χ 3 * denoms χ 4 * denoms χ 5))
        = (denoms χ 0 * denoms χ 1 * denoms χ 2 * denoms χ 3 * denoms χ 4 * denoms χ 5 * denoms χ 6 * denoms χ 7)⁻¹ * (denoms χ 0 * denoms χ 1 * denoms χ 2 * denoms χ 3 * denoms χ 4 * denoms χ 5 * denoms χ 6 * denoms χ 7) := by
          show denoms χ 6 * ((denoms χ 0 * denoms χ 1 * denoms χ 2 * denoms χ 3 * denoms χ 4 * denoms χ 5 * denoms χ 6 * denoms χ 7)⁻¹ * denoms χ 7 * (denoms χ 0 * denoms χ 1 * denoms χ 2 * denoms χ 3 * denoms χ 4 * denoms χ 5)) = _
          ring
      _ = 1 := inv_mul_cancel₀ hp
  · show denoms χ 7 * ((prefixP χ 7)⁻¹ * (denoms χ 0 * denoms χ 1 * denoms χ 2 * denoms χ 3 * denoms χ 4 * denoms χ 5 * denoms χ 6)) = 1
    calc denoms χ 7 * ((prefixP χ 7)⁻¹ * (denoms χ 0 * denoms χ 1 * denoms χ 2 * denoms χ 3 * denoms χ 4 * denoms χ 5 * denoms χ 6))
        = (denoms χ 0 * denoms χ 1 * denoms χ 2 * denoms χ 3 * denoms χ 4 * denoms χ 5 * denoms χ 6 * denoms χ 7)⁻¹ * (denoms χ 0 * denoms χ 1 * denoms χ 2 * denoms χ 3 * denoms χ 4 * denoms χ 5 * denoms χ 6 * denoms χ 7) := by
          show denoms χ 7 * ((denoms χ 0 * denoms χ 1 * denoms χ 2 * denoms χ 3 * denoms χ 4 * denoms χ 5 * denoms χ 6 * denoms χ 7)⁻¹ * (denoms χ 0 * denoms χ 1 * denoms χ 2 * denoms χ 3 * denoms χ 4 * denoms χ 5 * denoms χ 6)) = _
          ring
      _ = 1 := inv_mul_cancel₀ hp

/-- The barycentric constants as the spec states them: the BN254 scalar
representations of (−5040, 720, −240, 144, −144, 240, −720, 5040). -/
def baryW : Fin 8 → Fr := ![-5040, 720, -240, 144, -144, 240, -720, 5040]

theorem fromBytes_BARY : ∀ i : Fin 8, Fr.fromBytes (BARY_BYTES i) = baryW i := by
  intro i
  fin_cases i <;> decide

/-- The naive barycentric value of the spec (§4.5):
`u(χ) = B(χ) · Σᵢ uᵢ / (baryᵢ · (χ − i))` with `B(χ) = ∏ᵢ (χ − i)`. -/
def naive_barycentric (u : Fin 8 → Fr) (χ : Fr) : Fr :=
  (∏ i : Fin 8, (χ - (i.val : Fr))) * ∑ i : Fin 8, u i / (baryW i * (χ - (i.val : Fr)))

theorem cnts_eval (u : Fin 8 → Fr) (χ : Fr) (h : ∀ i : Fin 8, denoms χ i ≠ 0) :
    compute_next_target_sum u χ = .ok (naive_barycentric u χ) := by
  have hp : prefixP χ 7 ≠ 0 := by rw [prefixP_top]; exact denomProd_ne_zero h
  rw [cnts_match]
  unfold batchInverses
  rw [(Fr.inverse_mul_self (prefixP χ 7) hp).1]
  simp only [Option.map_some']
  congr 1
  have hinv : ∀ i : Fin 8, batchInvWith χ (prefixP χ 7)⁻¹ i = (denoms χ i)⁻¹ := fun i =>
    eq_inv_of_mul_eq_one_right (batchInvWith_mul_self χ h i)
  rw [hinv 0, hinv 1, hinv 2, hinv 3, hinv 4, hinv 5, hinv 6, hinv 7]
  unfold naive_barycentric
  rw [Fin.prod_univ_eight, Fin.sum_univ_eight]
  simp only [← fromBytes_BARY]
  simp only [show ((0 : Fin 8)).val = 0 from rfl, show ((1 : Fin 8)).val = 1 from rfl,
    show ((2 : Fin 8)).val = 2 from rfl, show ((3 : Fin 8)).val = 3 from rfl,
    show ((4 : Fin 8)).val = 4 from rfl, show ((5 : Fin 8)).val = 5 from rfl,
    show ((6 : Fin 8)).val = 6 from rfl, show ((7 : Fin 8)).val = 7 from rfl]
  unfold bPoly denoms Fr.fromU64
  simp only [show ((0 : Fin 8)).val = 0 from rfl, show ((1 : Fin 8)).val = 1 from rfl,
    show ((2 : Fin 8)).val = 2 from rfl, show ((3 : Fin 8)).val = 3 from rfl,
    show ((4 : Fin 8)).val = 4 from rfl, show ((5 : Fin 8)).val = 5 from rfl,
    show ((6 : Fin 8)).val = 6 from rfl, show ((7 : Fin 8)).val = 7 from rfl]
  ring

/-- Consistency predicate of round `r`: `u[0] + u[1] = round_target`. -/
def roundConsistent (univ : ℕ → Fin 8 → Fr) (uCh : ℕ → Fr) (r : ℕ) : Prop :=
  univ r 0 + univ r 1 = targetSeq univ uCh r

instance (univ : ℕ → Fin 8 → Fr) (uCh : ℕ → Fr) (r : ℕ) :
    Decidable (roundConsistent univ uCh r) := by
  unfold roundConsistent
  infer_instance

theorem targetSeq_succ (univ : ℕ → Fin 8 → Fr) (uCh : ℕ → Fr) (r : ℕ) (v : Fr)
    (hv : compute_next_target_sum (univ r) (uCh r) = .ok v) :
    targetSeq univ uCh (r + 1) = v := by
  rw [show targetSeq univ uCh (r + 1)
      = ((compute_next_target_sum (univ r) (uCh r)).toOption).getD 0 from rfl, hv]
  rfl

theorem sumcheckLoop_succ (univ : ℕ → Fin 8 → Fr) (uCh gCh : ℕ → Fr)
    (r n : ℕ) (t p : Fr) :
    sumcheckLoop univ uCh gCh r (n + 1) t p =
      if univ r 0 + univ r 1 = t then
        match compute_next_target_sum (univ r) (uCh r) with
        | .error e => .error e
        | .ok t' => sumcheckLoop univ uCh gCh (r + 1) n t'
            (partially_evaluate_pow (gCh r) p (uCh r))
      else .error "round failed" := rfl

theorem sumcheckLoop_ok (univ : ℕ → Fin 8 → Fr) (uCh gCh : ℕ → Fr) :
    ∀ (n r : ℕ),
      (∀ j, r ≤ j → j < r + n → denomProd (uCh j) ≠ 0) →
      (∀ j, r ≤ j → j < r + n → roundConsistent univ uCh j) →
      sumcheckLoop univ uCh gCh r n (targetSeq univ uCh r) (powSeq uCh gCh r)
        = .ok (targetSeq univ uCh (r + n), powSeq uCh gCh (r + n)) := by
  intro n
  induction n with
  | zero => intro r _ _; simp [sumcheckLoop]
  | succ n ih =>
    intro r hInv hcons
    have hc : univ r 0 + univ r 1 = targetSeq univ uCh r :=
      hcons r (le_refl r) (by omega)
    obtain ⟨v, hv⟩ := (cnts_ok_iff (univ r) (uCh r)).mpr (hInv r (le_refl r) (by omega))
    rw [sumcheckLoop_succ, if_pos hc, hv]
    show sumcheckLoop univ uCh gCh (r + 1) n v
        (partially_evaluate_pow (gCh r) (powSeq uCh gCh r) (uCh r)) = _
    rw [← targetSeq_succ univ uCh r v hv]
    have hpow : partially_evaluate_pow (gCh r) (powSeq uCh gCh r) (uCh r)
        = powSeq uCh gCh (r + 1) := rfl
    rw [hpow]
    rw [ih (r + 1) (fun j h1 h2 => hInv j (by omega) (by omega))
      (fun j h1 h2 => hcons j (by omega) (by omega))]
    have harith : r + 1 + n = r + (n + 1) := by omega
    rw [harith]

theorem sumcheckLoop_err (univ : ℕ → Fin 8 → Fr) (uCh gCh : ℕ → Fr) :
    ∀ (n r : ℕ),
      (∀ j, r ≤ j → j < r + n → denomProd (uCh j) ≠ 0) →
      ∀ j, r ≤ j → j < r + n →
      (∀ j', r ≤ j' → j' < j → roundConsistent univ uCh j') →
      ¬roundConsistent univ uCh j →
      sumcheckLoop univ uCh gCh r n (targetSeq univ uCh r) (powSeq uCh gCh r)
        = .error "round failed" := by
  intro n
  induction n with
  | zero => intro r _ j h1 h2; omega
  | succ n ih =>
    intro r hInv j hrj hjn hmin hfail
    by_cases hjr : j = r
    · subst hjr
      have hc : ¬(univ j 0 + univ j 1 = targetSeq univ uCh j) := hfail
      rw [sumcheckLoop_succ, if_neg hc]
    · have hrj' : r + 1 ≤ j := by omega
      have hc : univ r 0 + univ r 1 = targetSeq univ uCh r :=
        hmin r (le_refl r) (by omega)
      obtain ⟨v, hv⟩ := (cnts_ok_iff (univ r) (uCh r)).mpr (hInv r (le_refl r) (by omega))
      rw [sumcheckLoop_succ, if_pos hc, hv]
      show sumcheckLoop univ uCh gCh (r + 1) n v
          (partially_evaluate_pow (gCh r) (powSeq uCh gCh r) (uCh r)) = _
      rw [← targetSeq_succ univ uCh r v hv]
      have hpow : partially_evaluate_pow (gCh r) (powSeq uCh gCh r) (uCh r)
          = powSeq uCh gCh (r + 1) := rfl
      rw [hpow]
      exact ih (r + 1) (fun j' h1 h2 => hInv j' (by omega) (by omega)) j hrj' (by omega)
        (fun j' h1 h2 => hmin j' (by omega) h2) hfail

theorem verify_sumcheck_eq {R A : Type}
    (accumulate : (Fin 41 → Fr) → R → A → Fr → Fr)
    (univ : ℕ → Fin 8 → Fr) (evals : Fin 41 → Fr) (uCh gCh : ℕ → Fr)
    (relParams : R) (alphas : A) (logN : ℕ) :
    verify_sumcheck accumulate univ evals uCh gCh relParams alphas logN =
      match sumcheckLoop univ uCh gCh 0 logN 0 1 with
      | .error e => .error e
      | .ok (target, pow) =>
        if accumulate evals relParams alphas pow = target then .ok ()
        else .error "sumcheck final mismatch" := rfl

/-- **C1.**  In `verify_sumcheck`, with `round_target` initialised to zero and
`pow_partial` to one, round `r` fails with `"round failed"` unless
`u[0] + u[1]` equals the current round target (which is `targetSeq r`, the
barycentric extrapolation of the previous round); after the final round the
verifier accepts iff the grand relation sum (the accumulator applied to the
41 sum-check evaluations and the final pow-partial value) equals the final
round target, and otherwise fails with `"sumcheck final mismatch"`.
The relation accumulator is universally quantified since `relations.rs` is
not among the checked sources; the hypothesis `hInv` restricts to executions
where no barycentric denominator vanishes. -/
theorem C1_verify_sumcheck_characterization {R A : Type}
    (accumulate : (Fin 41 → Fr) → R → A → Fr → Fr)
    (univ : ℕ → Fin 8 → Fr) (evals : Fin 41 → Fr) (uCh gCh : ℕ → Fr)
    (relParams : R) (alphas : A) (logN : ℕ)
    (hInv : ∀ r, r < logN → denomProd (uCh r) ≠ 0) :
    (verify_sumcheck accumulate univ evals uCh gCh relParams alphas logN = .ok ()
      ↔ (∀ r, r < logN → univ r 0 + univ r 1 = targetSeq univ uCh r)
        ∧ accumulate evals relParams alphas (powSeq uCh gCh logN)
            = targetSeq univ uCh logN)
    ∧ (verify_sumcheck accumulate univ evals uCh gCh relParams alphas logN
        = .error "round failed"
      ↔ ¬(∀ r, r < logN → univ r 0 + univ r 1 = targetSeq univ uCh r))
    ∧ (verify_sumcheck accumulate univ evals uCh gCh relParams alphas logN
        = .error "sumcheck final mismatch"
      ↔ (∀ r, r < logN → univ r 0 + univ r 1 = targetSeq univ uCh r)
        ∧ accumulate evals relParams alphas (powSeq uCh gCh logN)
            ≠ targetSeq univ uCh logN) := by
  by_cases hcons : ∀ r, r < logN → roundConsistent univ uCh r
  · have hloop := sumcheckLoop_ok univ uCh gCh logN 0
      (fun j _ h2 => hInv j (by omega))
      (fun j _ h2 => hcons j (by omega))
    rw [show targetSeq univ uCh 0 = 0 from rfl, show powSeq uCh gCh 0 = 1 from rfl,
      show (0 + logN) = logN from by omega] at hloop
    have hred : verify_sumcheck accumulate univ evals uCh gCh relParams alphas logN
        = if accumulate evals relParams alphas (powSeq uCh gCh logN)
              = targetSeq univ uCh logN then (.ok () : Except String Unit)
          else .error "sumcheck final mismatch" := by
      rw [verify_sumcheck_eq, hloop]
    rw [hred]
    by_cases hfin : accumulate evals relParams alphas (powSeq uCh gCh logN)
        = targetSeq univ uCh logN
    · rw [if_pos hfin]
      refine ⟨⟨fun _ => ⟨fun r hr => hcons r hr, hfin⟩, fun _ => rfl⟩, ?_, ?_⟩
      · constructor
        · intro h; simp at h
        · intro h; exact absurd (fun r hr => hcons r hr) h
      · constructor
        · intro h; simp at h
        · intro h; exact absurd hfin h.2
    · rw [if_neg hfin]
      refine ⟨?_, ?_, ⟨fun _ => ⟨fun r hr => hcons r hr, hfin⟩, fun _ => rfl⟩⟩
      · constructor
        · intro h; simp at h
        · intro h; exact absurd h.2 hfin
      · constructor
        · intro h
          have hs : ("sumcheck final mismatch" : String) = "round failed" := by
            injection h
          exact absurd hs (by decide)
        · intro h; exact absurd (fun r hr => hcons r hr) h
  · have hex : ∃ r, r < logN ∧ ¬roundConsistent univ uCh r := by
      push_neg at hcons
      obtain ⟨r, hr1, hr2⟩ := hcons
      exact ⟨r, hr1, hr2⟩
    have hj := Nat.find_spec hex
    have hminC : ∀ j', 0 ≤ j' → j' < Nat.find hex → roundConsistent univ uCh j' := by
      intro j' _ hlt
      by_contra hC
      exact Nat.find_min hex hlt ⟨by omega, hC⟩
    have hloop := sumcheckLoop_err univ uCh gCh logN 0
      (fun j _ h2 => hInv j (by omega)) (Nat.find hex) (Nat.zero_le _)
      (by omega) hminC hj.2
    rw [show targetSeq univ uCh 0 = 0 from rfl, show powSeq uCh gCh 0 = 1 from rfl]
      at hloop
    have hred : verify_sumcheck accumulate univ evals uCh gCh relParams alphas logN
        = .error "round failed" := by
      rw [verify_sumcheck_eq, hloop]
    rw [hred]
    refine ⟨?_, ⟨fun _ => hcons, fun _ => rfl⟩, ?_⟩
    · constructor
      · intro h; simp at h
      · intro h; exact absurd h.1 hcons
    · constructor
      · intro h
        have hs : ("round failed" : String) = "sumcheck final mismatch" := by
          injection h
        exact absurd hs (by decide)
      · intro h; exact absurd h.1 hcons

/-- **C2.**  `compute_next_target_sum` refines the spec's naive barycentric
formula: the byte constants `BARY_BYTES` decode to the BN254 representations
of (−5040, 720, −240, 144, −144, 240, −720, 5040); the function returns
`Err("denom zero")` exactly when the product of the eight denominators
`baryᵢ · (χ − i)` is zero; and when every denominator is nonzero, the
Montgomery batch-inversion pass yields individual inverses `inv` satisfying
`denomᵢ · invᵢ = 1` and the result is exactly
`B(χ) · Σᵢ uᵢ / (baryᵢ · (χ − i))`. -/
theorem C2_compute_next_target_sum_barycentric (u : Fin 8 → Fr) (χ : Fr) :
    (∀ i : Fin 8, Fr.fromBytes (BARY_BYTES i) = baryW i)
    ∧ (compute_next_target_sum u χ = .error "denom zero"
        ↔ (∏ i : Fin 8, baryW i * (χ - (i.val : Fr))) = 0)
    ∧ ((∀ i : Fin 8, baryW i * (χ - (i.val : Fr)) ≠ 0) →
        compute_next_target_sum u χ = .ok (naive_barycentric u χ)
        ∧ ∃ inv : Fin 8 → Fr, batchInverses χ = some inv
            ∧ ∀ i : Fin 8, (baryW i * (χ - (i.val : Fr))) * inv i = 1) := by
  have hdb : ∀ i : Fin 8, baryW i * (χ - (i.val : Fr)) = denoms χ i := by
    intro i
    rw [← fromBytes_BARY i]
    rfl
  refine ⟨fromBytes_BARY, ?_, ?_⟩
  · rw [cnts_error_iff]
    constructor
    · intro h
      rw [show (∏ i : Fin 8, baryW i * (χ - (i.val : Fr)))
          = ∏ i : Fin 8, denoms χ i from Finset.prod_congr rfl
            (fun i _ => hdb i)]
      exact h
    · intro h
      show denomProd χ = 0
      rw [show denomProd χ = ∏ i : Fin 8, denoms χ i from rfl,
        ← Finset.prod_congr rfl (fun i (_ : i ∈ Finset.univ) => hdb i)]
      exact h
  · intro h
    have hd : ∀ i : Fin 8, denoms χ i ≠ 0 := by
      intro i
      rw [← hdb i]
      exact h i
    have hp : prefixP χ 7 ≠ 0 := by rw [prefixP_top]; exact denomProd_ne_zero hd
    refine ⟨cnts_eval u χ hd, batchInvWith χ (prefixP χ 7)⁻¹, ?_, ?_⟩
    · unfold batchInverses
      rw [(Fr.inverse_mul_self (prefixP χ 7) hp).1]
      rfl
    · intro i
      rw [hdb i]
      exact batchInvWith_mul_self χ hd i

/-- Witness for C2 at the concrete challenge `χ = 9` and the all-ones
univariate, where every denominator is nonzero. -/
theorem C2_compute_next_target_sum_barycentric_witness :
    (∀ i : Fin 8, baryW i * ((9 : Fr) - (i.val : Fr)) ≠ 0)
    ∧ (compute_next_target_sum (fun _ => 1) 9
          = .ok (naive_barycentric (fun _ => 1) 9)
        ∧ ∃ inv : Fin 8 → Fr, batchInverses 9 = some inv
            ∧ ∀ i : Fin 8, (baryW i * ((9 : Fr) - (i.val : Fr))) * inv i = 1) :=
  ⟨by decide,
    (C2_compute_next_target_sum_barycentric (fun _ => 1) 9).2.2 (by decide)⟩

/-- Witness for C1: one round, zero univariates, challenge 9, trivial
accumulator; the verifier accepts. -/
theorem C1_verify_sumcheck_characterization_witness :
    (∀ r : ℕ, r < 1 → denomProd ((fun _ => (9 : Fr)) r) ≠ 0)
    ∧ (verify_sumcheck (fun _ _ _ _ => (0 : Fr)) (fun _ _ => 0) (fun _ => 0)
          (fun _ => 9) (fun _ => 1) () () 1 = .ok ()
        ↔ (∀ r, r < 1 → (0 : Fr) + 0 = targetSeq (fun _ _ => 0) (fun _ => 9) r)
          ∧ (0 : Fr) = targetSeq (fun _ _ => 0) (fun _ => 9) 1) :=
  ⟨fun _ _ => (by decide : denomProd (9 : Fr) ≠ 0),
    (C1_verify_sumcheck_characterization (fun _ _ _ _ => (0 : Fr)) (fun _ _ => 0)
      (fun _ => 0) (fun _ => 9) (fun _ => 1) () () 1
      (fun _ _ => (by decide : denomProd (9 : Fr) ≠ 0))).1⟩

/-! ## Public-inputs delta (`verifier.rs`, `compute_public_input_delta`) -/

/-- Split a byte blob into consecutive 32-byte chunks (structural recursion
on a fuel equal to the length, so the kernel can evaluate it). -/
def bytesToChunks32F : ℕ → List ℕ → List (List ℕ)
  | _, [] => []
  | 0, _ :: _ => []
  | f + 1, b :: rest => ((b :: rest).take 32) :: bytesToChunks32F f ((b :: rest).drop 32)

/-- Split a byte blob into consecutive 32-byte chunks, mirroring the
`while idx < len` read loop of `compute_public_input_delta` (the caller has
already checked that the length is a multiple of 32). -/
def bytesToChunks32 (bs : List ℕ) : List (List ℕ) := bytesToChunks32F bs.length bs

/-- One iteration of the delta fold: multiply numerator and denominator by
`(acc + π)` and step the accumulators by `±β`. -/
def pidStep (β : Fr) (st : Fr × Fr × Fr × Fr) (x : Fr) : Fr × Fr × Fr × Fr :=
  (st.1 * (st.2.2.1 + x), st.2.1 * (st.2.2.2 + x), st.2.2.1 + β, st.2.2.2 - β)

/-- `compute_public_input_delta` from `verifier.rs`.  The `u64` additions
`PERMUTATION_ARGUMENT_VALUE_SEPARATOR + offset` and `offset + 1` are modelled
with the release-mode wraparound `% 2^64`. -/
def compute_public_input_delta (public_inputs : List ℕ) (ppo : List Fr)
    (β γ : Fr) (offset : ℕ) : Except String Fr :=
  let st0 : Fr × Fr × Fr × Fr :=
    (1, 1, γ + β * Fr.fromU64 ((2 ^ 28 + offset) % 2 ^ 64),
      γ - β * Fr.fromU64 ((offset + 1) % 2 ^ 64))
  let st1 := ((bytesToChunks32 public_inputs).map Fr.fromBytes).foldl (pidStep β) st0
  let st2 := ppo.foldl (pidStep β) st1
  match Fr.inverse st2.2.1 with
  | none => .error "public input delta denom is zero"
  | some dinv => .ok (st2.1 * dinv)

/-- Closed form of the delta fold over any element list. -/
theorem pidFold_eq (β : Fr) :
    ∀ (l : List Fr) (num denom nAcc dAcc : Fr),
      l.foldl (pidStep β) (num, denom, nAcc, dAcc)
        = (num * ∏ k ∈ Finset.range l.length, (nAcc + (k : ℕ) * β + l.getD k 0),
           denom * ∏ k ∈ Finset.range l.length, (dAcc - (k : ℕ) * β + l.getD k 0),
           nAcc + (l.length : ℕ) * β,
           dAcc - (l.length : ℕ) * β) := by
  intro l
  induction l with
  | nil => intro num denom nAcc dAcc; simp
  | cons x xs ih =>
    intro num denom nAcc dAcc
    show xs.foldl (pidStep β) (pidStep β (num, denom, nAcc, dAcc) x) = _
    rw [show pidStep β (num, denom, nAcc, dAcc) x
        = (num * (nAcc + x), denom * (dAcc + x), nAcc + β, dAcc - β) from rfl]
    rw [ih]
    have hlen : (x :: xs).length = xs.length + 1 := rfl
    rw [hlen]
    refine Prod.ext ?_ (Prod.ext ?_ (Prod.ext ?_ ?_)) <;> simp only
    · rw [Finset.prod_range_succ']
      simp only [List.getD_cons_succ, List.getD_cons_zero]
      rw [show (∏ k ∈ Finset.range xs.length,
          (nAcc + ((k + 1 : ℕ) : Fr) * β + xs.getD k 0))
          = ∏ k ∈ Finset.range xs.length, (nAcc + β + (k : ℕ) * β + xs.getD k 0) from
        Finset.prod_congr rfl (fun k _ => by push_cast; ring)]
      push_cast
      ring
    · rw [Finset.prod_range_succ']
      simp only [List.getD_cons_succ, List.getD_cons_zero]
      rw [show (∏ k ∈ Finset.range xs.length,
          (dAcc - ((k + 1 : ℕ) : Fr) * β + xs.getD k 0))
          = ∏ k ∈ Finset.range xs.length, (dAcc - β - (k : ℕ) * β + xs.getD k 0) from
        Finset.prod_congr rfl (fun k _ => by push_cast; ring)]
      push_cast
      ring
    · push_cast; ring
    · push_cast; ring

/-- The spec's telescoping numerator (§4.6): `∏ₖ (num_accₖ + πₖ)` with
`num_accₖ = γ + β·(2²⁸ + offset + k)`, over the provided public inputs (in
blob order) followed by the pairing-point values. -/
def deltaNum (public_inputs : List ℕ) (ppo : List Fr) (β γ : Fr) (offset : ℕ) : Fr :=
  ∏ k ∈ Finset.range ((bytesToChunks32 public_inputs).map Fr.fromBytes ++ ppo).length,
    (γ + β * ((2 ^ 28 + offset + k : ℕ) : Fr)
      + ((bytesToChunks32 public_inputs).map Fr.fromBytes ++ ppo).getD k 0)

/-- The spec's telescoping denominator (§4.6): `∏ₖ (denom_accₖ + πₖ)` with
`denom_accₖ = γ − β·(offset + 1 + k)`. -/
def deltaDen (public_inputs : List ℕ) (ppo : List Fr) (β γ : Fr) (offset : ℕ) : Fr :=
  ∏ k ∈ Finset.range ((bytesToChunks32 public_inputs).map Fr.fromBytes ++ ppo).length,
    (γ - β * ((offset + 1 + k : ℕ) : Fr)
      + ((bytesToChunks32 public_inputs).map Fr.fromBytes ++ ppo).getD k 0)

theorem compute_public_input_delta_eq (public_inputs : List ℕ) (ppo : List Fr)
    (β γ : Fr) (offset : ℕ) (hoff : 2 ^ 28 + offset < 2 ^ 64) :
    compute_public_input_delta public_inputs ppo β γ offset
      = match Fr.inverse (deltaDen public_inputs ppo β γ offset) with
        | none => .error "public input delta denom is zero"
        | some dinv => .ok (deltaNum public_inputs ppo β γ offset * dinv) := by
  have hm1 : (2 ^ 28 + offset) % 2 ^ 64 = 2 ^ 28 + offset := Nat.mod_eq_of_lt hoff
  have hm2 : (offset + 1) % 2 ^ 64 = offset + 1 := Nat.mod_eq_of_lt (by omega)
  have hcomb : ∀ s : Fr × Fr × Fr × Fr,
      ppo.foldl (pidStep β)
          (((bytesToChunks32 public_inputs).map Fr.fromBytes).foldl (pidStep β) s)
        = ((bytesToChunks32 public_inputs).map Fr.fromBytes ++ ppo).foldl
            (pidStep β) s := fun s => (List.foldl_append ..).symm
  have hnum :
      (((bytesToChunks32 public_inputs).map Fr.fromBytes ++ ppo).foldl (pidStep β)
        (1, 1, γ + β * Fr.fromU64 ((2 ^ 28 + offset) % 2 ^ 64),
          γ - β * Fr.fromU64 ((offset + 1) % 2 ^ 64))).1
        = deltaNum public_inputs ppo β γ offset := by
    rw [pidFold_eq]
    show 1 * _ = _
    rw [one_mul]
    unfold deltaNum
    refine Finset.prod_congr rfl (fun k _ => ?_)
    rw [hm1]
    unfold Fr.fromU64
    push_cast
    ring
  have hden :
      (((bytesToChunks32 public_inputs).map Fr.fromBytes ++ ppo).foldl (pidStep β)
        (1, 1, γ + β * Fr.fromU64 ((2 ^ 28 + offset) % 2 ^ 64),
          γ - β * Fr.fromU64 ((offset + 1) % 2 ^ 64))).2.1
        = deltaDen public_inputs ppo β γ offset := by
    rw [pidFold_eq]
    show 1 * _ = _
    rw [one_mul]
    unfold deltaDen
    refine Finset.prod_congr rfl (fun k _ => ?_)
    rw [hm2]
    unfold Fr.fromU64
    push_cast
    ring
  show (match Fr.inverse
      ((ppo.foldl (pidStep β)
        (((bytesToChunks32 public_inputs).map Fr.fromBytes).foldl (pidStep β)
          (1, 1, γ + β * Fr.fromU64 ((2 ^ 28 + offset) % 2 ^ 64),
            γ - β * Fr.fromU64 ((offset + 1) % 2 ^ 64)))).2.1) with
    | none => (.error "public input delta denom is zero" : Except String Fr)
    | some dinv => .ok ((ppo.foldl (pidStep β)
        (((bytesToChunks32 public_inputs).map Fr.fromBytes).foldl (pidStep β)
          (1, 1, γ + β * Fr.fromU64 ((2 ^ 28 + offset) % 2 ^ 64),
            γ - β * Fr.fromU64 ((offset + 1) % 2 ^ 64)))).1 * dinv)) = _
  rw [hcomb, hnum, hden]

/-- **C3.**  `compute_public_input_delta` implements the spec's telescoping
product: with `num_acc` starting at `γ + β·(2²⁸ + offset)` and `denom_acc`
at `γ − β·(offset + 1)`, it folds the provided 32-byte public inputs in blob
order and then the 16 pairing-point-object values, stepping the accumulators
by `±β` per input, and returns `numerator · denominator⁻¹`, failing exactly
when the final denominator is zero.  The `u64` sums are modelled with the
no-overflow hypothesis `hoff`. -/
theorem C3_compute_public_input_delta (public_inputs : List ℕ) (ppo : List Fr)
    (β γ : Fr) (offset : ℕ) (hppo : ppo.length = 16)
    (hoff : 2 ^ 28 + offset < 2 ^ 64) :
    (compute_public_input_delta public_inputs ppo β γ offset
        = .error "public input delta denom is zero"
      ↔ deltaDen public_inputs ppo β γ offset = 0)
    ∧ (deltaDen public_inputs ppo β γ offset ≠ 0 →
        compute_public_input_delta public_inputs ppo β γ offset
          = .ok (deltaNum public_inputs ppo β γ offset
              * (deltaDen public_inputs ppo β γ offset)⁻¹)) := by
  rw [compute_public_input_delta_eq public_inputs ppo β γ offset hoff]
  cases hinv : Fr.inverse (deltaDen public_inputs ppo β γ offset) with
  | none =>
    have h0 : deltaDen public_inputs ppo β γ offset = 0 :=
      (Fr.inverse_eq_none_iff _).mp hinv
    exact ⟨⟨fun _ => h0, fun _ => rfl⟩, fun hd => absurd h0 hd⟩
  | some dinv =>
    have hne : deltaDen public_inputs ppo β γ offset ≠ 0 := by
      intro h0
      rw [(Fr.inverse_eq_none_iff _).mpr h0] at hinv
      exact Option.noConfusion hinv
    have hdinv : dinv = (deltaDen public_inputs ppo β γ offset)⁻¹ := by
      have hsome := (Fr.inverse_mul_self _ hne).1
      rw [hinv] at hsome
      exact Option.some_inj.mp hsome
    constructor
    · constructor
      · intro hc; exact absurd hc (by simp)
      · intro h0; exact absurd h0 hne
    · intro _
      rw [hdinv]

/-- Witness for C3: no game public inputs, sixteen pairing-point values
equal to 2, `β = 1`, `γ = 100`, `offset = 1`. -/
theorem C3_compute_public_input_delta_witness :
    (List.replicate 16 (2 : Fr)).length = 16
    ∧ 2 ^ 28 + 1 < 2 ^ 64
    ∧ deltaDen [] (List.replicate 16 (2 : Fr)) 1 100 1 ≠ 0
    ∧ compute_public_input_delta [] (List.replicate 16 (2 : Fr)) 1 100 1
        = .ok (deltaNum [] (List.replicate 16 (2 : Fr)) 1 100 1
            * (deltaDen [] (List.replicate 16 (2 : Fr)) 1 100 1)⁻¹) :=
  ⟨rfl, by decide, by decide,
    (C3_compute_public_input_delta [] (List.replicate 16 (2 : Fr)) 1 100 1
      rfl (by decide)).2 (by decide)⟩

/-! ## `bytes32_from_u32` (`contracts/proof-of-life/src/lib.rs`) -/

/-- `bytes32_from_u32` from the proof-of-life contract: a 32-byte array with
bytes 28..31 holding the big-endian `u32` and all other bytes zero.
Rust's `(v >> k) & 0xFF` is modelled as `v / 2^k % 256`. -/
def bytes32_from_u32 (v : ℕ) : Fin 32 → ℕ := fun i =>
  if i.val = 31 then v % 256
  else if i.val = 30 then v / 256 % 256
  else if i.val = 29 then v / 65536 % 256
  else if i.val = 28 then v / 16777216 % 256
  else 0

/-- **C9.**  For every `u32` value `v`, the encoding has bytes 0..27 zero and
bytes 28..31 the big-endian bytes of `v`; decoding bytes 28..31 as a
big-endian `u32` round-trips; encodings of distinct values differ; and
`v = 550145953` encodes with bytes `[0x20, 0xca, 0x8f, 0xa1]` in positions
28..31. -/
theorem C9_bytes32_from_u32 (v w : ℕ) (hv : v < 2 ^ 32) (hw : w < 2 ^ 32) :
    (∀ i : Fin 32, i.val < 28 → bytes32_from_u32 v i = 0)
    ∧ bytes32_from_u32 v 28 * 16777216 + bytes32_from_u32 v 29 * 65536
        + bytes32_from_u32 v 30 * 256 + bytes32_from_u32 v 31 = v
    ∧ (v ≠ w → bytes32_from_u32 v ≠ bytes32_from_u32 w)
    ∧ (bytes32_from_u32 550145953 28 = 0x20 ∧ bytes32_from_u32 550145953 29 = 0xca
        ∧ bytes32_from_u32 550145953 30 = 0x8f ∧ bytes32_from_u32 550145953 31 = 0xa1) := by
  have hdec : ∀ x : ℕ, x < 2 ^ 32 →
      bytes32_from_u32 x 28 * 16777216 + bytes32_from_u32 x 29 * 65536
        + bytes32_from_u32 x 30 * 256 + bytes32_from_u32 x 31 = x := by
    intro x hx
    show x / 16777216 % 256 * 16777216 + x / 65536 % 256 * 65536
        + x / 256 % 256 * 256 + x % 256 = x
    omega
  refine ⟨?_, hdec v hv, ?_, by decide⟩
  · intro i hi
    unfold bytes32_from_u32
    rw [if_neg (by omega), if_neg (by omega), if_neg (by omega), if_neg (by omega)]
  · intro hne hfun
    apply hne
    rw [← hdec v hv, ← hdec w hw, hfun]

/-- Witness for C9 at `v = 550145953`, `w = 0`. -/
theorem C9_bytes32_from_u32_witness :
    550145953 < 2 ^ 32 ∧ 0 < 2 ^ 32
    ∧ bytes32_from_u32 550145953 28 * 16777216 + bytes32_from_u32 550145953 29 * 65536
        + bytes32_from_u32 550145953 30 * 256 + bytes32_from_u32 550145953 31 = 550145953
    ∧ ((550145953 : ℕ) ≠ 0 → bytes32_from_u32 550145953 ≠ bytes32_from_u32 0) :=
  ⟨by decide, by decide,
    (C9_bytes32_from_u32 550145953 0 (by decide) (by decide)).2.1,
    (C9_bytes32_from_u32 550145953 0 (by decide) (by decide)).2.2.1⟩

/-! ## VK and proof parsing (`utils.rs`, `verifier.rs`) -/

/-- An uncompressed G1 point as two 32-byte big-endian coordinates. -/
structure G1Point where
  x : List ℕ
  y : List ℕ
deriving DecidableEq

/-- Modelled from the spec (§3, `types.rs` missing from the sources): the
identity is encoded as all-zeros. -/
def G1Point.infinity : G1Point := ⟨List.replicate 32 0, List.replicate 32 0⟩

/-- The parsed verification key (`types.rs` is missing from the sources; the
shape is determined by `load_vk_from_bytes` in `utils.rs`).  The 28 G1
commitments are indexed positionally in the source's order: qm, qc, ql, qr,
qo, q4, qLookup, qArith, qDeltaRange, qElliptic, qMemory, qNnf,
qPoseidon2External, qPoseidon2Internal, s1–s4, id1–id4, t1–t4,
lagrangeFirst, lagrangeLast. -/
@[ext]
structure VerificationKey where
  circuit_size : ℕ
  log_circuit_size : ℕ
  public_inputs_size : ℕ
  pub_inputs_offset : ℕ
  commitments : Fin 28 → G1Point

/-- `load_vk_from_bytes` from `utils.rs`: accepts a 1888-byte body (96-byte
header + 28 × 64-byte points) or the padded 3680-byte variant; each header
field takes the last 8 bytes of its 32-byte slot as a big-endian `u64`;
`circuit_size = 1u64 << log_circuit_size` is modelled with the release-mode
masked shift `2 ^ (log % 64)`. -/
def load_vk_from_bytes (bytes : List ℕ) : Option VerificationKey :=
  if bytes.length = 1888 ∨ bytes.length = 3680 then
    some
      { circuit_size := 2 ^ (beNat ((bytes.drop 24).take 8) % 64)
        log_circuit_size := beNat ((bytes.drop 24).take 8)
        public_inputs_size := beNat ((bytes.drop 56).take 8)
        pub_inputs_offset := beNat ((bytes.drop 88).take 8)
        commitments := fun k =>
          { x := (bytes.drop (96 + 64 * k.val)).take 32
            y := (bytes.drop (96 + 64 * k.val + 32)).take 32 } }
  else none

/-- `UltraHonkVerifier::new` from `verifier.rs`: requires at least 32 bytes,
takes the first 32 as the precomputed `vk_hash`, and parses the remainder as
the VK body. -/
def ultraHonkNew (vk_bytes : List ℕ) : Except String (VerificationKey × List ℕ) :=
  if vk_bytes.length < 32 then .error "vk too short for hash prefix"
  else
    match load_vk_from_bytes (vk_bytes.drop 32) with
    | none => .error "vk parse error"
    | some vk => .ok (vk, vk_bytes.take 32)

theorem beNat_cons (x : ℕ) (xs : List ℕ) :
    ∀ init : ℕ, (x :: xs).foldl (fun acc b => acc * 256 + b) init
      = xs.foldl (fun acc b => acc * 256 + b) (init * 256 + x) := by
  intro init
  rfl

theorem beNat_foldl_init (xs : List ℕ) :
    ∀ init : ℕ, xs.foldl (fun acc b => acc * 256 + b) init
      = init * 256 ^ xs.length + beNat xs := by
  induction xs with
  | nil => intro init; simp [beNat]
  | cons x xs ih =>
    intro init
    rw [beNat_cons, ih (init * 256 + x)]
    have hx : beNat (x :: xs) = x * 256 ^ xs.length + beNat xs := by
      show (x :: xs).foldl (fun acc b => acc * 256 + b) 0 = _
      rw [beNat_cons, ih (0 * 256 + x)]
      ring_nf
    rw [hx]
    have hlen : (x :: xs).length = xs.length + 1 := rfl
    rw [hlen]
    ring

theorem beNat_append (a b : List ℕ) :
    beNat (a ++ b) = beNat a * 256 ^ b.length + beNat b := by
  show (a ++ b).foldl (fun acc x => acc * 256 + x) 0 = _
  rw [List.foldl_append]
  exact beNat_foldl_init b (beNat a)

theorem beNat_lt (b : List ℕ) (h : ∀ x ∈ b, x < 256) :
    beNat b < 256 ^ b.length := by
  induction b with
  | nil => simp [beNat]
  | cons x xs ih =>
    have hx : beNat (x :: xs) = x * 256 ^ xs.length + beNat xs := by
      show (x :: xs).foldl (fun acc b => acc * 256 + b) 0 = _
      rw [beNat_cons, beNat_foldl_init xs (0 * 256 + x)]
      ring_nf
    rw [hx, show (x :: xs).length = xs.length + 1 from rfl]
    have h1 : x < 256 := h x (List.mem_cons_self x xs)
    have h2 : beNat xs < 256 ^ xs.length := ih (fun y hy => h y (List.mem_cons_of_mem x hy))
    calc x * 256 ^ xs.length + beNat xs
        < x * 256 ^ xs.length + 256 ^ xs.length := by omega
    _ = (x + 1) * 256 ^ xs.length := by ring
    _ ≤ 256 * 256 ^ xs.length := by
        exact Nat.mul_le_mul_right _ (by omega)
    _ = 256 ^ (xs.length + 1) := by ring

/-- Reading the last 8 bytes of a 32-byte slot as a big-endian `u64` agrees
with reducing the full 32-byte big-endian value modulo `2^64`. -/
theorem beNat_low8 (slot : List ℕ) (hlen : slot.length = 32)
    (hb : ∀ x ∈ slot, x < 256) :
    beNat ((slot.drop 24).take 8) = beNat slot % 2 ^ 64 := by
  have hsplit : slot = slot.take 24 ++ (slot.drop 24).take 8 := by
    have h1 : slot.take 24 ++ (slot.drop 24).take 8 = slot.take 32 := by
      rw [show (32 : ℕ) = 24 + 8 from rfl, List.take_add]
    rw [h1, List.take_of_length_le (by omega)]
  have hlow : ((slot.drop 24).take 8).length = 8 := by
    rw [List.length_take, List.length_drop, hlen]
    omega
  have hblow : ∀ x ∈ (slot.drop 24).take 8, x < 256 := by
    intro x hx
    exact hb x (by rw [hsplit]; exact List.mem_append_right _ hx)
  have h8 : (256 : ℕ) ^ 8 = 2 ^ 64 := by norm_num
  have hlt : beNat ((slot.drop 24).take 8) < 2 ^ 64 := by
    rw [← h8]
    calc beNat ((slot.drop 24).take 8) < 256 ^ ((slot.drop 24).take 8).length :=
          beNat_lt _ hblow
    _ = 256 ^ 8 := by rw [hlow]
  conv_rhs => rw [hsplit]
  rw [beNat_append, hlow, h8]
  omega

/-- **C6.**  `UltraHonkVerifier::new` fails with `"vk too short for hash prefix"` iff the blob is shorter than 32 bytes; after splitting off the
32-byte hash prefix, parsing succeeds exactly on a 1888-byte or 3680-byte
body, reading the three header fields as 32-byte big-endian u64 slots
(the big-endian value of the full slot reduced mod `2^64`) and the 28
commitments positionally; any other body length yields `"vk parse error"`. -/
theorem C6_vk_blob_parsing (vk_bytes : List ℕ) (hb : ∀ x ∈ vk_bytes, x < 256) :
    (vk_bytes.length < 32 ↔ ultraHonkNew vk_bytes = .error "vk too short for hash prefix")
    ∧ (32 ≤ vk_bytes.length →
        ((vk_bytes.length - 32 = 1888 ∨ vk_bytes.length - 32 = 3680) →
          ultraHonkNew vk_bytes = .ok
            ({ circuit_size := 2 ^ (beNat ((vk_bytes.drop 32).take 32) % 2 ^ 64 % 64)
               log_circuit_size := beNat ((vk_bytes.drop 32).take 32) % 2 ^ 64
               public_inputs_size :=
                 beNat (((vk_bytes.drop 32).drop 32).take 32) % 2 ^ 64
               pub_inputs_offset :=
                 beNat (((vk_bytes.drop 32).drop 64).take 32) % 2 ^ 64
               commitments := fun k =>
                 { x := ((vk_bytes.drop 32).drop (96 + 64 * k.val)).take 32
                   y := ((vk_bytes.drop 32).drop (96 + 64 * k.val + 32)).take 32 } },
             vk_bytes.take 32))
        ∧ (¬(vk_bytes.length - 32 = 1888 ∨ vk_bytes.length - 32 = 3680) →
            ultraHonkNew vk_bytes = .error "vk parse error")) := by
  constructor
  · by_cases hlen : vk_bytes.length < 32
    · constructor
      · intro _
        unfold ultraHonkNew
        rw [if_pos hlen]
      · intro _; exact hlen
    · constructor
      · intro h; exact absurd h hlen
      · intro hres
        unfold ultraHonkNew at hres
        rw [if_neg hlen] at hres
        cases hload : load_vk_from_bytes (vk_bytes.drop 32) with
        | none =>
          rw [hload] at hres
          have : ("vk parse error" : String) = "vk too short for hash prefix" := by
            injection hres
          exact absurd this (by decide)
        | some vk =>
          rw [hload] at hres
          exact Except.noConfusion hres
  · intro hlen
    have hbody : (vk_bytes.drop 32).length = vk_bytes.length - 32 := by
      rw [List.length_drop]
    constructor
    · intro hcond
      have hbodyb : ∀ x ∈ vk_bytes.drop 32, x < 256 :=
        fun x hx => hb x (List.mem_of_mem_drop hx)
      have hlen1888 : 1888 ≤ (vk_bytes.drop 32).length := by
        rw [hbody]; omega
      -- the three header slots, read as low-8-byte big-endian u64 values
      have hslot : ∀ off : ℕ, off + 32 ≤ (vk_bytes.drop 32).length →
          beNat (((vk_bytes.drop 32).drop (24 + off)).take 8)
            = beNat (((vk_bytes.drop 32).drop off).take 32) % 2 ^ 64 := by
        intro off hoff
        have hsl : ((((vk_bytes.drop 32).drop off).take 32).drop 24).take 8
            = (((vk_bytes.drop 32).drop off).drop 24).take 8 := by
          rw [List.drop_take]
          simp [List.take_take]
        have hlen32 : (((vk_bytes.drop 32).drop off).take 32).length = 32 := by
          rw [List.length_take, List.length_drop]
          omega
        have hbb : ∀ x ∈ ((vk_bytes.drop 32).drop off).take 32, x < 256 :=
          fun x hx => hbodyb x (List.mem_of_mem_drop (List.mem_of_mem_take hx))
        have hres := beNat_low8 (((vk_bytes.drop 32).drop off).take 32) hlen32 hbb
        rw [hsl] at hres
        have hsl2 : (((vk_bytes.drop 32).drop off).drop 24)
            = (vk_bytes.drop 32).drop (24 + off) := by
          rw [List.drop_drop]
          rw [Nat.add_comm]
        rw [hsl2] at hres
        exact hres
      unfold ultraHonkNew
      rw [if_neg (by omega)]
      have hload : load_vk_from_bytes (vk_bytes.drop 32) = some
          { circuit_size := 2 ^ (beNat ((vk_bytes.drop 32).take 32) % 2 ^ 64 % 64)
            log_circuit_size := beNat ((vk_bytes.drop 32).take 32) % 2 ^ 64
            public_inputs_size :=
              beNat (((vk_bytes.drop 32).drop 32).take 32) % 2 ^ 64
            pub_inputs_offset :=
              beNat (((vk_bytes.drop 32).drop 64).take 32) % 2 ^ 64
            commitments := fun k =>
              { x := ((vk_bytes.drop 32).drop (96 + 64 * k.val)).take 32
                y := ((vk_bytes.drop 32).drop (96 + 64 * k.val + 32)).take 32 } } := by
        unfold load_vk_from_bytes
        rw [if_pos (by omega)]
        have h0 := hslot 0 (by omega)
        have h32 := hslot 32 (by omega)
        have h64 := hslot 64 (by omega)
        rw [show (24 + 0) = 24 from rfl] at h0
        rw [show (24 + 32) = 56 from rfl] at h32
        rw [show (24 + 64) = 88 from rfl] at h64
        rw [show (vk_bytes.drop 32).drop 0 = vk_bytes.drop 32 from List.drop_zero _] at h0
        congr 1
        ext : 1
        · rw [h0]
        · rw [h0]
        · rw [h32]
        · rw [h64]
        · rfl
      rw [hload]
    · intro hcond
      unfold ultraHonkNew
      rw [if_neg (by omega)]
      have hload : load_vk_from_bytes (vk_bytes.drop 32) = none := by
        unfold load_vk_from_bytes
        rw [if_neg (by rw [hbody]; exact hcond)]
      rw [hload]

/-- `UltraHonkVerifier::new_with_vk` from `verifier.rs`: stores the given VK
with an all-zero `vk_hash` ("zeroed when VK bytes not available"); no hash of
the VK encoding is computed. -/
def ultraHonkNew_with_vk (vk : VerificationKey) : VerificationKey × List ℕ :=
  (vk, List.replicate 32 0)

/-- Counterexample to **C7** as stated: a hash-less 1888-byte VK blob is
rejected with `"vk parse error"` — `new` unconditionally strips a 32-byte
hash prefix, leaving a 1856-byte body that parses as neither 1888 nor 3680
bytes; no keccak hash of the VK encoding is ever computed. -/
theorem C7_counterexample_hashless_rejected :
    ultraHonkNew (List.replicate 1888 0) = .error "vk parse error" := by
  unfold ultraHonkNew load_vk_from_bytes
  rw [if_neg (by simp), if_neg (by simp)]

/-- **C7 (amended).**  Only hash-prefixed VK blobs are accepted: `new`
succeeds exactly on blobs of total length 1920 (= 32 + 1888) or
3712 (= 32 + 3680), always using the first 32 bytes as the cached
`vk_hash`; `new_with_vk` stores an all-zero hash instead of computing a
keccak hash of the VK encoding. -/
theorem C7_hash_prefix_required (vk_bytes : List ℕ) :
    ((∃ st, ultraHonkNew vk_bytes = .ok st)
      ↔ (vk_bytes.length = 1920 ∨ vk_bytes.length = 3712))
    ∧ (∀ vk hash, ultraHonkNew vk_bytes = .ok (vk, hash) → hash = vk_bytes.take 32)
    ∧ (∀ vk : VerificationKey, ultraHonkNew_with_vk vk = (vk, List.replicate 32 0)) := by
  refine ⟨⟨?_, ?_⟩, ?_, fun vk => rfl⟩
  · rintro ⟨st, hst⟩
    unfold ultraHonkNew at hst
    by_cases hlen : vk_bytes.length < 32
    · rw [if_pos hlen] at hst; exact Except.noConfusion hst
    · rw [if_neg hlen] at hst
      cases hload : load_vk_from_bytes (vk_bytes.drop 32) with
      | none => rw [hload] at hst; exact Except.noConfusion hst
      | some vk =>
        unfold load_vk_from_bytes at hload
        by_cases hc : (vk_bytes.drop 32).length = 1888 ∨ (vk_bytes.drop 32).length = 3680
        · rw [List.length_drop] at hc
          omega
        · rw [if_neg hc] at hload
          exact Option.noConfusion hload
  · intro hlen
    unfold ultraHonkNew
    rw [if_neg (by omega)]
    have hc : (vk_bytes.drop 32).length = 1888 ∨ (vk_bytes.drop 32).length = 3680 := by
      rw [List.length_drop]
      omega
    unfold load_vk_from_bytes
    rw [if_pos hc]
    exact ⟨_, rfl⟩
  · intro vk hash hst
    unfold ultraHonkNew at hst
    by_cases hlen : vk_bytes.length < 32
    · rw [if_pos hlen] at hst; exact Except.noConfusion hst
    · rw [if_neg hlen] at hst
      cases hload : load_vk_from_bytes (vk_bytes.drop 32) with
      | none => rw [hload] at hst; exact Except.noConfusion hst
      | some vk' =>
        rw [hload] at hst
        have hpair := Except.ok.inj hst
        exact (congrArg Prod.snd hpair).symm

/-- Witness for the amended C7: a 1920-byte blob is accepted. -/
theorem C7_hash_prefix_required_witness :
    ∃ st, ultraHonkNew (List.replicate 1920 0) = .ok st :=
  (C7_hash_prefix_required (List.replicate 1920 0)).1.mpr
    (Or.inl (by simp))

/-- Witness for C6 at an all-zero 1920-byte blob. -/
theorem C6_vk_blob_parsing_witness :
    (∀ x ∈ List.replicate 1920 (0 : ℕ), x < 256)
    ∧ ((List.replicate 1920 (0 : ℕ)).length < 32
        ↔ ultraHonkNew (List.replicate 1920 0) = .error "vk too short for hash prefix") :=
  ⟨fun x hx => by rw [List.eq_of_mem_replicate hx]; decide,
    (C6_vk_blob_parsing (List.replicate 1920 0)
      (fun x hx => by rw [List.eq_of_mem_replicate hx]; decide)).1⟩

/-! ## Proof parsing and the `verify` pipeline (`utils.rs`, `verifier.rs`) -/

/-- `proof_bytes_for_log_n` from `utils.rs`: `(75 + 11 * log_n as usize) * 32`
with the 64-bit `usize` arithmetic modelled by explicit `% 2^64`
wraparound. -/
def proof_bytes_for_log_n (log_n : ℕ) : ℕ :=
  (75 + 11 * log_n % 2 ^ 64) % 2 ^ 64 * 32 % 2 ^ 64

/-- The parsed proof (`types.rs` is missing from the sources; the shape is
determined by `load_proof` in `utils.rs`).  Arrays are padded with zeros
(respectively the all-zero identity point) beyond the actual `log_n`, as in
the source. -/
structure Proof where
  pairing_point_object : Fin 16 → Fr
  w1 : G1Point
  w2 : G1Point
  w3 : G1Point
  lookup_read_counts : G1Point
  lookup_read_tags : G1Point
  w4 : G1Point
  lookup_inverses : G1Point
  z_perm : G1Point
  sumcheck_univariates : ℕ → Fin 8 → Fr
  sumcheck_evaluations : Fin 41 → Fr
  gemini_fold_comms : ℕ → G1Point
  gemini_a_evaluations : ℕ → Fr
  shplonk_q : G1Point
  kzg_quotient : G1Point

/-- `load_proof` from `utils.rs`, as positional slices of the blob (the
source reads sequentially with a cursor over the same fixed-size fields):
16 pairing-point `Fr`, 8 G1 points, `log_n × 8` sum-check univariates,
41 evaluations, `log_n − 1` Gemini fold commitments, `log_n` Gemini
a-evaluations, Shplonk Q and the KZG quotient. -/
def load_proof (b : List ℕ) (log_n : ℕ) : Proof :=
  { pairing_point_object := fun k => Fr.fromBytes ((b.drop (32 * k.val)).take 32)
    w1 := ⟨(b.drop 512).take 32, (b.drop 544).take 32⟩
    w2 := ⟨(b.drop 576).take 32, (b.drop 608).take 32⟩
    w3 := ⟨(b.drop 640).take 32, (b.drop 672).take 32⟩
    lookup_read_counts := ⟨(b.drop 704).take 32, (b.drop 736).take 32⟩
    lookup_read_tags := ⟨(b.drop 768).take 32, (b.drop 800).take 32⟩
    w4 := ⟨(b.drop 832).take 32, (b.drop 864).take 32⟩
    lookup_inverses := ⟨(b.drop 896).take 32, (b.drop 928).take 32⟩
    z_perm := ⟨(b.drop 960).take 32, (b.drop 992).take 32⟩
    sumcheck_univariates := fun r i =>
      if r < log_n then Fr.fromBytes ((b.drop (1024 + 256 * r + 32 * i.val)).take 32)
      else 0
    sumcheck_evaluations := fun k =>
      Fr.fromBytes ((b.drop (1024 + 256 * log_n + 32 * k.val)).take 32)
    gemini_fold_comms := fun i =>
      if i < log_n - 1 then
        ⟨(b.drop (2336 + 256 * log_n + 64 * i)).take 32,
         (b.drop (2336 + 256 * log_n + 64 * i + 32)).take 32⟩
      else G1Point.infinity
    gemini_a_evaluations := fun i =>
      if i < log_n then
        Fr.fromBytes ((b.drop (2336 + 256 * log_n + 64 * (log_n - 1) + 32 * i)).take 32)
      else 0
    shplonk_q :=
      ⟨(b.drop (2336 + 256 * log_n + 64 * (log_n - 1) + 32 * log_n)).take 32,
       (b.drop (2336 + 256 * log_n + 64 * (log_n - 1) + 32 * log_n + 32)).take 32⟩
    kzg_quotient :=
      ⟨(b.drop (2336 + 256 * log_n + 64 * (log_n - 1) + 32 * log_n + 64)).take 32,
       (b.drop (2336 + 256 * log_n + 64 * (log_n - 1) + 32 * log_n + 96)).take 32⟩ }

/-- Modelled from the spec (§3, `transcript.rs` missing from the sources):
the transcript state with the derived challenges and the computed
`public_inputs_delta` (the relation parameters `eta, eta_two, eta_three,
beta, gamma` and the delta form `rel_params`). -/
structure Transcript where
  eta : Fr
  eta_two : Fr
  eta_three : Fr
  beta : Fr
  gamma : Fr
  alphas : ℕ → Fr
  gate_challenges : ℕ → Fr
  sumcheck_u_challenges : ℕ → Fr
  public_inputs_delta : Fr

/-- The error type of `verifier.rs`. -/
inductive VerifyError where
  | InvalidInput : String → VerifyError
  | SumcheckFailed : String → VerifyError
  | ShplonkFailed : String → VerifyError
deriving DecidableEq

/-- The sum-check and shplemini stages of `verify`, given the finished
transcript (with the public-inputs delta stored in it). -/
def verifyStages (accumulate : (Fin 41 → Fr) → Transcript → (ℕ → Fr) → Fr → Fr)
    (shplemini : Proof → (Fin 28 → G1Point) → ℕ → Transcript → Except String Unit)
    (vk : VerificationKey) (proof : Proof) (t' : Transcript) :
    Except VerifyError Unit :=
  match verify_sumcheck accumulate proof.sumcheck_univariates
      proof.sumcheck_evaluations t'.sumcheck_u_challenges t'.gate_challenges t'
      t'.alphas vk.log_circuit_size with
  | .error e => .error (.SumcheckFailed e)
  | .ok _ =>
    match shplemini proof vk.commitments vk.log_circuit_size t' with
    | .error e => .error (.ShplonkFailed e)
    | .ok _ => .ok ()

/-- The stages of `verify` after the input checks: build the Fiat–Shamir
transcript, compute and store the public-inputs delta, run sum-check, run
shplemini.  `generate_transcript` (`transcript.rs`), the relation accumulator
(`relations.rs`) and `verify_shplemini` (`shplemini.rs`) are missing from the
sources and are taken as function arguments with the interfaces visible at
their call sites (for shplemini, per spec §4.7, the commitments and
`log_circuit_size` of the VK plus the proof and transcript — not
`public_inputs_size`). -/
def verifyRest (genT : Proof → List ℕ → List ℕ → ℕ → ℕ → ℕ → Transcript)
    (accumulate : (Fin 41 → Fr) → Transcript → (ℕ → Fr) → Fr → Fr)
    (shplemini : Proof → (Fin 28 → G1Point) → ℕ → Transcript → Except String Unit)
    (vk : VerificationKey) (vk_hash : List ℕ)
    (proof : Proof) (public_inputs_bytes : List ℕ) (provided : ℕ) :
    Except VerifyError Unit :=
  let t := genT proof public_inputs_bytes vk_hash vk.circuit_size (provided + 16)
    vk.pub_inputs_offset
  match compute_public_input_delta public_inputs_bytes
      (List.ofFn proof.pairing_point_object) t.beta t.gamma vk.pub_inputs_offset with
  | .error e => .error (.InvalidInput e)
  | .ok δ =>
    verifyStages accumulate shplemini vk proof { t with public_inputs_delta := δ }

/-- `UltraHonkVerifier::verify` from `verifier.rs`: proof-size check, then
`load_proof` (whose `assert!` failure for `log_n > CONST_PROOF_SIZE_LOG_N = 28`
and whose out-of-bounds reads for `log_n = 0` are modelled as the `none`
(panic) outcome), then the public-input alignment and count checks, then the
transcript/delta/sum-check/shplemini stages. -/
def verifyFull (genT : Proof → List ℕ → List ℕ → ℕ → ℕ → ℕ → Transcript)
    (accumulate : (Fin 41 → Fr) → Transcript → (ℕ → Fr) → Fr → Fr)
    (shplemini : Proof → (Fin 28 → G1Point) → ℕ → Transcript → Except String Unit)
    (vk : VerificationKey) (vk_hash : List ℕ)
    (proof_bytes public_inputs_bytes : List ℕ) :
    Option (Except VerifyError Unit) :=
  if proof_bytes.length ≠ proof_bytes_for_log_n vk.log_circuit_size then
    some (.error (.InvalidInput "proof size mismatch"))
  else if ¬(1 ≤ vk.log_circuit_size ∧ vk.log_circuit_size ≤ 28) then
    none
  else if public_inputs_bytes.length % 32 ≠ 0 then
    some (.error (.InvalidInput "public inputs must be 32-byte aligned"))
  else if ¬(public_inputs_bytes.length / 32 = vk.public_inputs_size
      ∨ (16 ≤ vk.public_inputs_size
          ∧ vk.public_inputs_size - 16 = public_inputs_bytes.length / 32)) then
    some (.error (.InvalidInput "public inputs mismatch (vk vs provided)"))
  else
    some (verifyRest genT accumulate shplemini vk vk_hash
      (load_proof proof_bytes vk.log_circuit_size) public_inputs_bytes
      (public_inputs_bytes.length / 32))

theorem delta_error_string (pi : List ℕ) (ppo : List Fr) (β γ : Fr) (off : ℕ)
    (e : String) (h : compute_public_input_delta pi ppo β γ off = .error e) :
    e = "public input delta denom is zero" := by
  revert h
  show (match Fr.inverse ((ppo.foldl (pidStep β)
      (((bytesToChunks32 pi).map Fr.fromBytes).foldl (pidStep β)
        (1, 1, γ + β * Fr.fromU64 ((2 ^ 28 + off) % 2 ^ 64),
          γ - β * Fr.fromU64 ((off + 1) % 2 ^ 64)))).2.1) with
    | none => (.error "public input delta denom is zero" : Except String Fr)
    | some dinv => .ok ((ppo.foldl (pidStep β)
        (((bytesToChunks32 pi).map Fr.fromBytes).foldl (pidStep β)
          (1, 1, γ + β * Fr.fromU64 ((2 ^ 28 + off) % 2 ^ 64),
            γ - β * Fr.fromU64 ((off + 1) % 2 ^ 64)))).1 * dinv)) = .error e → _
  cases Fr.inverse ((ppo.foldl (pidStep β)
      (((bytesToChunks32 pi).map Fr.fromBytes).foldl (pidStep β)
        (1, 1, γ + β * Fr.fromU64 ((2 ^ 28 + off) % 2 ^ 64),
          γ - β * Fr.fromU64 ((off + 1) % 2 ^ 64)))).2.1) with
  | none => intro h; exact (Except.error.inj h).symm
  | some d => intro h; exact Except.noConfusion h

theorem verifyStages_not_invalidInput
    (accumulate : (Fin 41 → Fr) → Transcript → (ℕ → Fr) → Fr → Fr)
    (shplemini : Proof → (Fin 28 → G1Point) → ℕ → Transcript → Except String Unit)
    (vk : VerificationKey) (proof : Proof) (t' : Transcript) (e : String) :
    verifyStages accumulate shplemini vk proof t' ≠ .error (.InvalidInput e) := by
  unfold verifyStages
  cases verify_sumcheck accumulate proof.sumcheck_univariates
      proof.sumcheck_evaluations t'.sumcheck_u_challenges t'.gate_challenges t'
      t'.alphas vk.log_circuit_size with
  | error e' =>
    intro h
    exact VerifyError.noConfusion (Except.error.inj h)
  | ok u =>
    cases shplemini proof vk.commitments vk.log_circuit_size t' with
    | error e' =>
      intro h
      exact VerifyError.noConfusion (Except.error.inj h)
    | ok v =>
      intro h
      exact Except.noConfusion h

/-- The post-check stage can only produce an `InvalidInput` error through the
delta computation, whose reason is `"public input delta denom is zero"`. -/
theorem verifyRest_invalidInput (genT : Proof → List ℕ → List ℕ → ℕ → ℕ → ℕ → Transcript)
    (accumulate : (Fin 41 → Fr) → Transcript → (ℕ → Fr) → Fr → Fr)
    (shplemini : Proof → (Fin 28 → G1Point) → ℕ → Transcript → Except String Unit)
    (vk : VerificationKey) (vk_hash : List ℕ) (proof : Proof) (pis : List ℕ)
    (prov : ℕ) (e : String)
    (h : verifyRest genT accumulate shplemini vk vk_hash proof pis prov
      = .error (.InvalidInput e)) :
    e = "public input delta denom is zero" := by
  revert h
  simp only [verifyRest]
  cases hd : compute_public_input_delta pis (List.ofFn proof.pairing_point_object)
      (genT proof pis vk_hash vk.circuit_size (prov + 16) vk.pub_inputs_offset).beta
      (genT proof pis vk_hash vk.circuit_size (prov + 16) vk.pub_inputs_offset).gamma
      vk.pub_inputs_offset with
  | error e' =>
    intro h
    have he2 : e' = e := by
      have he := Except.error.inj h
      injection he
    rw [← he2]
    exact delta_error_string _ _ _ _ _ _ hd
  | ok δ =>
    intro h
    exact absurd h (verifyStages_not_invalidInput accumulate shplemini vk proof
      { genT proof pis vk_hash vk.circuit_size (prov + 16) vk.pub_inputs_offset with
        public_inputs_delta := δ } e)

/-- A trivial transcript, used to instantiate the abstract transcript
generator at concrete inputs. -/
def constTranscript : Transcript :=
  ⟨0, 0, 0, 0, 0, fun _ => 0, fun _ => 0, fun _ => 0, 0⟩

/-- A VK blob (32-byte hash prefix + 1888-byte body) whose header field
`log_circuit_size` equals `L = 366838660556724031`, chosen so that
`(75 + 11·L)·32 ≡ 0 (mod 2^64)`. -/
def C4vkBlob : List ℕ :=
  List.replicate 32 0
    ++ (List.replicate 24 0 ++ [5, 23, 69, 209, 116, 93, 23, 63]
        ++ List.replicate 1856 0)

/-- The verification key parsed from `C4vkBlob`. -/
def C4vk : VerificationKey :=
  (load_vk_from_bytes (C4vkBlob.drop 32)).getD
    ⟨0, 0, 0, 0, fun _ => G1Point.infinity⟩

theorem C4vkBlob_drop32 :
    C4vkBlob.drop 32 = List.replicate 24 0
      ++ ([5, 23, 69, 209, 116, 93, 23, 63] ++ List.replicate 1856 0) := by
  show (List.replicate 32 0
      ++ (List.replicate 24 0 ++ [5, 23, 69, 209, 116, 93, 23, 63]
          ++ List.replicate 1856 0)).drop 32 = _
  rw [List.drop_left' (by simp), List.append_assoc]

theorem C4vk_log : C4vk.log_circuit_size = 366838660556724031 := by
  have hlen : (C4vkBlob.drop 32).length = 1888 := by
    rw [C4vkBlob_drop32]
    simp
  unfold C4vk load_vk_from_bytes
  rw [if_pos (Or.inl hlen)]
  show beNat (((C4vkBlob.drop 32).drop 24).take 8) = 366838660556724031
  rw [C4vkBlob_drop32, List.drop_left' (by simp), List.take_left' (by simp)]
  decide

/-- **C4.**  The claimed panic-freedom fails: `UltraHonkVerifier::new`
accepts a well-formed VK blob whose `log_circuit_size` is
`L = 366838660556724031 > 28` (no range check exists), the wrapped `usize`
proof-size formula evaluates to `0`, so the empty proof blob passes
`verify`'s size check and execution reaches `load_proof`, where
`assert!(log_n <= CONST_PROOF_SIZE_LOG_N)` fails — a panic, modelled as the
`none` outcome of `verifyFull`. -/
theorem C4_load_proof_assert_reachable :
    ultraHonkNew C4vkBlob = .ok (C4vk, List.replicate 32 0)
    ∧ C4vk.log_circuit_size = 366838660556724031
    ∧ proof_bytes_for_log_n C4vk.log_circuit_size = 0
    ∧ 28 < C4vk.log_circuit_size
    ∧ verifyFull (fun _ _ _ _ _ _ => constTranscript) (fun _ _ _ _ => 0)
        (fun _ _ _ _ => .ok ()) C4vk (List.replicate 32 0) [] [] = none := by
  have hlen : (C4vkBlob.drop 32).length = 1888 := by
    rw [C4vkBlob_drop32]
    simp
  have hlog := C4vk_log
  refine ⟨?_, hlog, by rw [hlog]; decide, by rw [hlog]; decide, ?_⟩
  · unfold ultraHonkNew
    rw [if_neg (show ¬(C4vkBlob.length < 32) by
      show ¬((List.replicate 32 0 ++ _).length < 32)
      simp)]
    obtain ⟨vkv, hvk⟩ : ∃ vkv, load_vk_from_bytes (C4vkBlob.drop 32) = some vkv := by
      unfold load_vk_from_bytes
      rw [if_pos (Or.inl hlen)]
      exact ⟨_, rfl⟩
    rw [hvk]
    have h1 : C4vk = vkv := by
      unfold C4vk
      rw [hvk]
      rfl
    have h2 : C4vkBlob.take 32 = List.replicate 32 0 := by
      show (List.replicate 32 0 ++ _).take 32 = _
      rw [List.take_left' (by simp)]
    rw [h1, h2]
  · unfold verifyFull
    rw [hlog, if_neg (by decide), if_pos (by decide)]

/-- Counterexample to **C5** as stated: for the VK with
`log_circuit_size = 366838660556724031`, the empty proof blob differs from
the mathematical `(75 + 11·log_n)·32` yet `verify` does not return
`InvalidInput("proof size mismatch")` (the wrapped `usize` comparison passes
and `load_proof` panics), and likewise the misaligned public-inputs blob
`[1]` never produces the alignment error. -/
theorem C5_counterexample_usize_wrap :
    verifyFull (fun _ _ _ _ _ _ => constTranscript) (fun _ _ _ _ => 0)
        (fun _ _ _ _ => .ok ()) C4vk (List.replicate 32 0) [] [1] = none
    ∧ (List.length ([] : List ℕ) ≠ (75 + 11 * C4vk.log_circuit_size) * 32)
    ∧ (List.length [1] % 32 ≠ 0) := by
  have hlog := C4vk_log
  refine ⟨?_, by rw [hlog]; decide, by decide⟩
  unfold verifyFull
  rw [hlog, if_neg (by decide), if_pos (by decide)]

/-- **C5 (amended).**  For `1 ≤ log_circuit_size ≤ 28` (the range in which
the `usize` size formula does not wrap and `load_proof` cannot panic),
`verify` returns `InvalidInput("proof size mismatch")` iff the proof blob
length differs from `(75 + 11·log_n)·32`; given the right proof size it
returns the alignment error iff the public-input length is not a multiple of
32; given alignment it returns the count-mismatch error iff
`provided = len/32` is neither `public_inputs_size` nor
`public_inputs_size − 16`; and when all three checks pass it proceeds to the
transcript stage. -/
theorem C5_verify_error_discipline
    (genT : Proof → List ℕ → List ℕ → ℕ → ℕ → ℕ → Transcript)
    (accumulate : (Fin 41 → Fr) → Transcript → (ℕ → Fr) → Fr → Fr)
    (shplemini : Proof → (Fin 28 → G1Point) → ℕ → Transcript → Except String Unit)
    (vk : VerificationKey) (vk_hash proof_bytes pis : List ℕ)
    (hlog : 1 ≤ vk.log_circuit_size ∧ vk.log_circuit_size ≤ 28) :
    (verifyFull genT accumulate shplemini vk vk_hash proof_bytes pis
        = some (.error (.InvalidInput "proof size mismatch"))
      ↔ proof_bytes.length ≠ (75 + 11 * vk.log_circuit_size) * 32)
    ∧ (proof_bytes.length = (75 + 11 * vk.log_circuit_size) * 32 →
        ((verifyFull genT accumulate shplemini vk vk_hash proof_bytes pis
            = some (.error (.InvalidInput "public inputs must be 32-byte aligned"))
          ↔ pis.length % 32 ≠ 0)
        ∧ (pis.length % 32 = 0 →
            ((verifyFull genT accumulate shplemini vk vk_hash proof_bytes pis
                = some (.error (.InvalidInput "public inputs mismatch (vk vs provided)"))
              ↔ ¬(pis.length / 32 = vk.public_inputs_size
                  ∨ (16 ≤ vk.public_inputs_size
                      ∧ vk.public_inputs_size - 16 = pis.length / 32)))
            ∧ ((pis.length / 32 = vk.public_inputs_size
                  ∨ (16 ≤ vk.public_inputs_size
                      ∧ vk.public_inputs_size - 16 = pis.length / 32)) →
                verifyFull genT accumulate shplemini vk vk_hash proof_bytes pis
                  = some (verifyRest genT accumulate shplemini vk vk_hash
                      (load_proof proof_bytes vk.log_circuit_size) pis
                      (pis.length / 32))))))) := by
  have hsize : proof_bytes_for_log_n vk.log_circuit_size
      = (75 + 11 * vk.log_circuit_size) * 32 := by
    unfold proof_bytes_for_log_n
    have h64 : (2 : ℕ) ^ 64 = 18446744073709551616 := by norm_num
    rw [h64]
    omega
  unfold verifyFull
  rw [hsize]
  have hnotRest : ∀ s : String, s ≠ "public input delta denom is zero" →
      (some (verifyRest genT accumulate shplemini vk vk_hash
          (load_proof proof_bytes vk.log_circuit_size) pis (pis.length / 32))
        : Option (Except VerifyError Unit))
        ≠ some (.error (.InvalidInput s)) := by
    intro s hs hres
    exact hs (verifyRest_invalidInput _ _ _ _ _ _ _ _ _ (Option.some.inj hres))
  by_cases hp : proof_bytes.length ≠ (75 + 11 * vk.log_circuit_size) * 32
  · rw [if_pos hp]
    refine ⟨⟨fun _ => hp, fun _ => rfl⟩, fun hcp => absurd hcp hp⟩
  · rw [if_neg hp, if_neg (by omega)]
    by_cases ha : pis.length % 32 ≠ 0
    · rw [if_pos ha]
      refine ⟨⟨?_, ?_⟩, fun _ => ⟨⟨fun _ => ha, fun _ => rfl⟩, fun hal => absurd hal ha⟩⟩
      · intro hres
        have hstr : ("public inputs must be 32-byte aligned" : String)
            = "proof size mismatch" := by
          have h1 := Option.some.inj hres
          have h2 := Except.error.inj h1
          injection h2
        exact absurd hstr (by decide)
      · intro hcp; exact absurd hcp hp
    · rw [if_neg ha]
      by_cases hv : ¬(pis.length / 32 = vk.public_inputs_size
          ∨ (16 ≤ vk.public_inputs_size
              ∧ vk.public_inputs_size - 16 = pis.length / 32))
      · rw [if_pos hv]
        have hstr12 : ∀ s : String, s ≠ "public inputs mismatch (vk vs provided)" →
            (some (.error (.InvalidInput "public inputs mismatch (vk vs provided)"))
              : Option (Except VerifyError Unit)) ≠ some (.error (.InvalidInput s)) := by
          intro s hs hres
          have h1 := Option.some.inj hres
          have h2 := Except.error.inj h1
          apply hs
          have : s = "public inputs mismatch (vk vs provided)" := by
            injection h2 with h3
            exact h3.symm
          exact this
        refine ⟨⟨?_, ?_⟩, fun _ => ⟨⟨?_, ?_⟩, fun _ => ⟨⟨fun _ => hv, fun _ => rfl⟩,
          fun hval => absurd hval hv⟩⟩⟩
        · intro hres
          exact absurd hres (hstr12 _ (by decide))
        · intro hcp; exact absurd hcp hp
        · intro hres
          exact absurd hres (hstr12 _ (by decide))
        · intro hal; exact absurd hal ha
      · rw [if_neg hv]
        refine ⟨⟨?_, ?_⟩, fun _ => ⟨⟨?_, ?_⟩, fun _ => ⟨⟨?_, ?_⟩, fun _ => rfl⟩⟩⟩
        · intro hres
          exact absurd hres (hnotRest _ (by decide))
        · intro hcp; exact absurd hcp hp
        · intro hres
          exact absurd hres (hnotRest _ (by decide))
        · intro hal; exact absurd hal ha
        · intro hres
          exact absurd hres (hnotRest _ (by decide))
        · intro hval; exact absurd hval hv

/-- A small concrete VK used in witnesses. -/
def C5vkW : VerificationKey := ⟨2, 1, 0, 0, fun _ => G1Point.infinity⟩

/-- Witness for the amended C5 at `log_circuit_size = 1` and empty blobs. -/
theorem C5_verify_error_discipline_witness :
    (1 ≤ C5vkW.log_circuit_size ∧ C5vkW.log_circuit_size ≤ 28)
    ∧ (verifyFull (fun _ _ _ _ _ _ => constTranscript) (fun _ _ _ _ => 0)
          (fun _ _ _ _ => .ok ()) C5vkW [] [] []
        = some (.error (.InvalidInput "proof size mismatch"))
      ↔ List.length ([] : List ℕ) ≠ (75 + 11 * C5vkW.log_circuit_size) * 32) :=
  ⟨⟨by decide, by decide⟩,
    (C5_verify_error_discipline (fun _ _ _ _ _ _ => constTranscript) (fun _ _ _ _ => 0)
      (fun _ _ _ _ => .ok ()) C5vkW [] [] [] ⟨by decide, by decide⟩).1⟩

/-- **C10.**  After the public-input count check passes,
`vk.public_inputs_size` is never consulted again: the transcript is seeded
with `provided + 16` total public inputs and the delta folds the provided
scalars followed by the 16 pairing-point values, so two VKs that differ only
in `public_inputs_size` and both pass the count check give identical
verification results (for every transcript generator, relation accumulator
and shplemini checker, which per their interfaces never receive
`public_inputs_size`). -/
theorem C10_public_inputs_size_unused
    (genT : Proof → List ℕ → List ℕ → ℕ → ℕ → ℕ → Transcript)
    (accumulate : (Fin 41 → Fr) → Transcript → (ℕ → Fr) → Fr → Fr)
    (shplemini : Proof → (Fin 28 → G1Point) → ℕ → Transcript → Except String Unit)
    (vk : VerificationKey) (s' : ℕ) (vk_hash proof_bytes pis : List ℕ)
    (h1 : pis.length / 32 = vk.public_inputs_size
        ∨ (16 ≤ vk.public_inputs_size
            ∧ vk.public_inputs_size - 16 = pis.length / 32))
    (h2 : pis.length / 32 = s' ∨ (16 ≤ s' ∧ s' - 16 = pis.length / 32)) :
    verifyFull genT accumulate shplemini vk vk_hash proof_bytes pis
      = verifyFull genT accumulate shplemini
          { vk with public_inputs_size := s' } vk_hash proof_bytes pis := by
  unfold verifyFull
  have hL : ({ vk with public_inputs_size := s' }
      : VerificationKey).log_circuit_size = vk.log_circuit_size := rfl
  have hS : ({ vk with public_inputs_size := s' }
      : VerificationKey).public_inputs_size = s' := rfl
  rw [hL, hS]
  by_cases hp : proof_bytes.length ≠ proof_bytes_for_log_n vk.log_circuit_size
  · rw [if_pos hp, if_pos hp]
  · rw [if_neg hp, if_neg hp]
    by_cases hg : ¬(1 ≤ vk.log_circuit_size ∧ vk.log_circuit_size ≤ 28)
    · rw [if_pos hg, if_pos hg]
    · rw [if_neg hg, if_neg hg]
      by_cases ha : pis.length % 32 ≠ 0
      · rw [if_pos ha, if_pos ha]
      · rw [if_neg ha, if_neg ha, if_neg (not_not_intro h1), if_neg (not_not_intro h2)]
        show some (verifyRest genT accumulate shplemini vk vk_hash
            (load_proof proof_bytes vk.log_circuit_size) pis (pis.length / 32)) = _
        rfl

/-- Witness for C10: `public_inputs_size` 0 versus 16, empty public inputs. -/
theorem C10_public_inputs_size_unused_witness :
    ((List.length ([] : List ℕ)) / 32 = C5vkW.public_inputs_size
      ∨ (16 ≤ C5vkW.public_inputs_size
          ∧ C5vkW.public_inputs_size - 16 = (List.length ([] : List ℕ)) / 32))
    ∧ verifyFull (fun _ _ _ _ _ _ => constTranscript) (fun _ _ _ _ => 0)
        (fun _ _ _ _ => .ok ()) C5vkW [] [] []
      = verifyFull (fun _ _ _ _ _ _ => constTranscript) (fun _ _ _ _ => 0)
          (fun _ _ _ _ => .ok ())
          { C5vkW with public_inputs_size := 16 } [] [] [] :=
  ⟨Or.inl (by decide),
    C10_public_inputs_size_unused (fun _ _ _ _ _ _ => constTranscript)
      (fun _ _ _ _ => 0) (fun _ _ _ _ => .ok ()) C5vkW 16 [] [] []
      (Or.inl (by decide)) (Or.inr ⟨by decide, by decide⟩)⟩

/-! ## Groth16 verifier (`contracts/zk-verifier/src/lib.rs`) -/

/-- Modelled from the spec (§4.2): the BN254 host primitives provided by the
contract runtime (point decoding, addition, scalar multiplication, negation
and the product-of-pairings check), which the verifier delegates to. -/
structure Bn254Host (G1 G2 S : Type) where
  g1_add : G1 → G1 → G1
  g1_mul : G1 → S → G1
  g1_neg : G1 → G1
  pairing_check : List G1 → List G2 → Bool
  g1_from_bytes : List ℕ → G1
  g2_from_bytes : List ℕ → G2
  fr_from_bytes : List ℕ → S

/-- A Groth16 verification key over BN254 (byte-encoded points). -/
structure Groth16Vk where
  alpha_g1 : List ℕ
  beta_g2 : List ℕ
  gamma_g2 : List ℕ
  delta_g2 : List ℕ
  ic : List (List ℕ)

/-- A Groth16 proof (3 curve elements, byte-encoded). -/
structure Groth16Proof where
  a : List ℕ
  b : List ℕ
  c : List ℕ

/-- The error type of the zk-verifier contract. -/
inductive VerifierError where
  | NotAdmin : VerifierError
  | VkNotFound : VerifierError
  | PublicInputCountMismatch : VerifierError
  | InvalidProof : VerifierError
deriving DecidableEq

/-- `verify_groth16` from `contracts/zk-verifier/src/lib.rs`: the stored-VK
lookup result is passed as an `Option`; the `vk_x` loop over `0..n_inputs`
and the single pairing check mirror the source (the `unwrap`ped vector
accesses are modelled with `getD`, in bounds whenever the count check
passed). -/
def verify_groth16 {G1 G2 S : Type} (host : Bn254Host G1 G2 S)
    (stored_vk : Option Groth16Vk) (proof : Groth16Proof)
    (public_inputs : List (List ℕ)) : Except VerifierError Bool :=
  match stored_vk with
  | none => .error .VkNotFound
  | some vk =>
    if vk.ic.length ≠ public_inputs.length + 1 then .error .PublicInputCountMismatch
    else
      let vk_x := (List.range public_inputs.length).foldl
        (fun acc i => host.g1_add acc
          (host.g1_mul (host.g1_from_bytes (vk.ic.getD (i + 1) []))
            (host.fr_from_bytes (public_inputs.getD i []))))
        (host.g1_from_bytes (vk.ic.getD 0 []))
      .ok (host.pairing_check
        [host.g1_from_bytes proof.a, host.g1_neg (host.g1_from_bytes vk.alpha_g1),
          host.g1_neg vk_x, host.g1_neg (host.g1_from_bytes proof.c)]
        [host.g2_from_bytes proof.b, host.g2_from_bytes vk.beta_g2,
          host.g2_from_bytes vk.gamma_g2, host.g2_from_bytes vk.delta_g2])

theorem range_fold_step {γ : Type} (h : γ → ℕ → γ) (n : ℕ) (init : γ) :
    (List.range (n + 1)).foldl h init
      = (List.range n).foldl (fun acc i => h acc (i + 1)) (h init 0) := by
  rw [List.range_succ_eq_map]
  rw [List.foldl_cons, List.foldl_map]

/-- An index-based fold over two lists of equal length equals the fold over
their zip. -/
theorem range_fold_eq_zip_fold {α β γ : Type} (g : γ → α → β → γ) (da : α) (db : β) :
    ∀ (xs : List α) (ys : List β) (init : γ), xs.length = ys.length →
      (List.range xs.length).foldl
          (fun acc i => g acc (xs.getD i da) (ys.getD i db)) init
        = (xs.zip ys).foldl (fun acc p => g acc p.1 p.2) init := by
  intro xs
  induction xs with
  | nil => intro ys init _; simp
  | cons x xs ih =>
    intro ys init hlen
    cases ys with
    | nil => simp at hlen
    | cons y ys =>
      rw [show (x :: xs).length = xs.length + 1 from rfl, range_fold_step]
      simp only [List.getD_cons_zero, List.getD_cons_succ]
      rw [ih ys (g init x y) (by simpa using hlen)]
      rfl

theorem getD_succ_drop {α : Type} (l : List α) (d : α) (i : ℕ) :
    l.getD (i + 1) d = (l.drop 1).getD i d := by
  cases l with
  | nil => simp
  | cons x xs => simp

theorem verify_groth16_some {G1 G2 S : Type} (host : Bn254Host G1 G2 S)
    (vk : Groth16Vk) (proof : Groth16Proof) (public_inputs : List (List ℕ)) :
    verify_groth16 host (some vk) proof public_inputs =
      if vk.ic.length ≠ public_inputs.length + 1 then
        .error .PublicInputCountMismatch
      else
        .ok (host.pairing_check
          [host.g1_from_bytes proof.a, host.g1_neg (host.g1_from_bytes vk.alpha_g1),
            host.g1_neg ((List.range public_inputs.length).foldl
              (fun acc i => host.g1_add acc
                (host.g1_mul (host.g1_from_bytes (vk.ic.getD (i + 1) []))
                  (host.fr_from_bytes (public_inputs.getD i []))))
              (host.g1_from_bytes (vk.ic.getD 0 []))),
            host.g1_neg (host.g1_from_bytes proof.c)]
          [host.g2_from_bytes proof.b, host.g2_from_bytes vk.beta_g2,
            host.g2_from_bytes vk.gamma_g2, host.g2_from_bytes vk.delta_g2]) := rfl

/-- **C8.**  `verify_groth16` returns `VkNotFound` iff no VK is stored for
the circuit; with a stored VK it returns `PublicInputCountMismatch` iff the
IC vector length differs from the number of public inputs plus one; and
otherwise returns `Ok(b)` where `b` is the single pairing check
`e(A,B)·e(−α,β)·e(−vk_x,γ)·e(−C,δ) = 1` with
`vk_x = IC[0] + Σᵢ inputᵢ·IC[i+1]` accumulated by G1 scalar multiplications
and additions.  The curve and pairing operations are host primitives
(spec §4.2) and are universally quantified. -/
theorem C8_verify_groth16_characterization {G1 G2 S : Type}
    (host : Bn254Host G1 G2 S) (stored_vk : Option Groth16Vk)
    (proof : Groth16Proof) (public_inputs : List (List ℕ)) :
    (verify_groth16 host stored_vk proof public_inputs = .error .VkNotFound
      ↔ stored_vk = none)
    ∧ (∀ vk, stored_vk = some vk →
        ((verify_groth16 host stored_vk proof public_inputs
            = .error .PublicInputCountMismatch
          ↔ vk.ic.length ≠ public_inputs.length + 1)
        ∧ (vk.ic.length = public_inputs.length + 1 →
            verify_groth16 host stored_vk proof public_inputs
              = .ok (host.pairing_check
                  [host.g1_from_bytes proof.a,
                    host.g1_neg (host.g1_from_bytes vk.alpha_g1),
                    host.g1_neg ((public_inputs.zip (vk.ic.drop 1)).foldl
                      (fun acc p => host.g1_add acc
                        (host.g1_mul (host.g1_from_bytes p.2)
                          (host.fr_from_bytes p.1)))
                      (host.g1_from_bytes (vk.ic.getD 0 []))),
                    host.g1_neg (host.g1_from_bytes proof.c)]
                  [host.g2_from_bytes proof.b, host.g2_from_bytes vk.beta_g2,
                    host.g2_from_bytes vk.gamma_g2,
                    host.g2_from_bytes vk.delta_g2])))) := by
  constructor
  · cases stored_vk with
    | none => exact ⟨fun _ => rfl, fun _ => rfl⟩
    | some vk =>
      constructor
      · intro h
        rw [verify_groth16_some] at h
        by_cases hc : vk.ic.length ≠ public_inputs.length + 1
        · rw [if_pos hc] at h
          exact absurd (Except.error.inj h) (by decide)
        · rw [if_neg hc] at h
          exact Except.noConfusion h
      · intro h; exact Option.noConfusion h
  · intro vk hvk
    subst hvk
    constructor
    · rw [verify_groth16_some]
      by_cases hc : vk.ic.length ≠ public_inputs.length + 1
      · rw [if_pos hc]
        exact ⟨fun _ => hc, fun _ => rfl⟩
      · rw [if_neg hc]
        exact ⟨fun h => Except.noConfusion h, fun hcc => absurd hcc hc⟩
    · intro hlen
      rw [verify_groth16_some, if_neg (fun hne => hne hlen)]
      have hlen' : public_inputs.length = (vk.ic.drop 1).length := by
        rw [List.length_drop]
        omega
      rw [show (List.range public_inputs.length).foldl
          (fun acc i => host.g1_add acc
            (host.g1_mul (host.g1_from_bytes (vk.ic.getD (i + 1) []))
              (host.fr_from_bytes (public_inputs.getD i []))))
          (host.g1_from_bytes (vk.ic.getD 0 []))
        = (public_inputs.zip (vk.ic.drop 1)).foldl
            (fun acc p => host.g1_add acc
              (host.g1_mul (host.g1_from_bytes p.2) (host.fr_from_bytes p.1)))
            (host.g1_from_bytes (vk.ic.getD 0 [])) from by
          simp only [getD_succ_drop]
          exact range_fold_eq_zip_fold
            (fun acc a b => host.g1_add acc
              (host.g1_mul (host.g1_from_bytes b) (host.fr_from_bytes a)))
            [] [] public_inputs (vk.ic.drop 1)
            (host.g1_from_bytes (vk.ic.getD 0 [])) hlen']

/-- Witness for C8 with a one-element IC, no public inputs and a trivial
host. -/
theorem C8_verify_groth16_characterization_witness :
    (some (Groth16Vk.mk [] [] [] [] [[]]) = some (Groth16Vk.mk [] [] [] [] [[]]))
    ∧ (Groth16Vk.mk [] [] [] [] [[]]).ic.length = ([] : List (List ℕ)).length + 1
    ∧ verify_groth16
        (Bn254Host.mk
          (fun _ _ => ()) (fun _ _ => ()) (fun _ => ()) (fun _ _ => true)
          (fun _ => ()) (fun _ => ()) (fun _ => ()) : Bn254Host Unit Unit Unit)
        (some (Groth16Vk.mk [] [] [] [] [[]])) (Groth16Proof.mk [] [] []) []
      = .ok true :=
  ⟨rfl, rfl, by
    have h := ((C8_verify_groth16_characterization
        (Bn254Host.mk
          (fun _ _ => ()) (fun _ _ => ()) (fun _ => ()) (fun _ _ => true)
          (fun _ => ()) (fun _ => ()) (fun _ => ()) : Bn254Host Unit Unit Unit)
        (some (Groth16Vk.mk [] [] [] [] [[]])) (Groth16Proof.mk [] [] []) []).2
      (Groth16Vk.mk [] [] [] [] [[]]) rfl).2 rfl
    exact h⟩

/-- Counterexample to **C3** as stated: for `offset = 2^64 − 1` the `u64`
initialisations wrap — `offset + 1` becomes `0`, so with `β = γ = 1` and a
first pairing-point value of `−1` the code's final denominator is zero and
it fails, while the claim's exact formula `γ − β·(offset + 1 + k) + πₖ`
gives the nonzero denominator `−2^64` and predicts success. -/
theorem C3_counterexample_u64_wrap :
    compute_public_input_delta [] ((-1 : Fr) :: List.replicate 15 0) 1 1 (2 ^ 64 - 1)
      = .error "public input delta denom is zero"
    ∧ deltaDen [] ((-1 : Fr) :: List.replicate 15 0) 1 1 (2 ^ 64 - 1) ≠ 0 :=
  ⟨rfl, by decide⟩
